import Mathlib

/-!
# Verification of the BMS library-management backend

Shallow embedding of the copy-accounting core of the BMS repository:
the book catalog handlers (`src/routers/books.py`), the borrow/return
protocol (`src/routers/borrow.py`) and user registration (`src/auth.py`).

The document store is modelled as lists of records; `find_one`,
`update_one` and `delete_one` act on the first matching element, which
matches the sequential (single-request-at-a-time) semantics of the
driver calls in the source.  Python integers are modelled as `Int`
(they are unbounded and the source performs no validation that would
keep them non-negative).  Mongo ObjectIds for borrow records and users
are modelled as naturals drawn from a per-state counter, and
`datetime.utcnow()` as a logical clock.
-/

namespace BMS

/-- A document of the `books` collection.  `discontinued` is an optional
field: it is absent (`none`) on books created by `add_book` and only ever
set by the discontinue handler. -/
structure Book where
  id : Int
  title : String
  author : String
  total_copies : Int
  available_copies : Int
  borrowed_copies : Int
  available : Bool
  discontinued : Option Bool
  deriving Repr, DecidableEq

/-- A document of the `borrow_records` collection.  `oid` models the Mongo
ObjectId, `borrowed_at`/`returned_at` model the timestamps. -/
structure BorrowRecord where
  oid : Nat
  user_id : String
  book_id : Int
  borrowed_at : Nat
  returned_at : Option Nat
  deriving Repr, DecidableEq

/-- A document of the `users` collection (password field holds the hash). -/
structure UserDoc where
  oid : Nat
  name : String
  email : String
  password : String
  role : String
  deriving Repr, DecidableEq

/-- The database state: the four collections used by the handlers.
`bookSeq` is the `counters` document for the name "bookid" (0 when the
document is absent, matching the upsert-`$inc` semantics).  `next_oid`
generates fresh ObjectIds and `clock` models wall-clock time. -/
structure DBState where
  books : List Book
  borrow_records : List BorrowRecord
  users : List UserDoc
  bookSeq : Int
  next_oid : Nat
  clock : Nat
  deriving Repr, DecidableEq

/-- The empty database. -/
def initState : DBState :=
  { books := [], borrow_records := [], users := [],
    bookSeq := 0, next_oid := 0, clock := 0 }

/-- An `HTTPException` as raised by the handlers: status code and detail. -/
structure HTTPError where
  status : Nat
  detail : String
  deriving Repr, DecidableEq

/-- A handler outcome: either an HTTP error or a response value. -/
abbrev Result (α : Type) := Except HTTPError α

instance {ε α : Type} [DecidableEq ε] [DecidableEq α] :
    DecidableEq (Except ε α) := fun x y =>
  match x, y with
  | .ok a, .ok b =>
    if h : a = b then isTrue (h ▸ rfl)
    else isFalse fun hc => h (Except.ok.inj hc)
  | .error a, .error b =>
    if h : a = b then isTrue (h ▸ rfl)
    else isFalse fun hc => h (Except.error.inj hc)
  | .ok _, .error _ => isFalse fun hc => Except.noConfusion hc
  | .error _, .ok _ => isFalse fun hc => Except.noConfusion hc

/-- `update_one`: rewrite the first element satisfying `p` with `f`. -/
def updateOne (p : α → Bool) (f : α → α) : List α → List α
  | [] => []
  | x :: xs => if p x then f x :: xs else x :: updateOne p f xs

/-- `update_one` together with its `modified_count` (0 when no element
matches or when the matched element is left unchanged by `f`). -/
def updateOneMod [DecidableEq α] (p : α → Bool) (f : α → α) :
    List α → List α × Nat
  | [] => ([], 0)
  | x :: xs =>
    if p x then (f x :: xs, if f x = x then 0 else 1)
    else
      let r := updateOneMod p f xs
      (x :: r.1, r.2)

/-- `delete_one`: remove the first element satisfying `p`, with its
`deleted_count`. -/
def deleteOne (p : α → Bool) : List α → List α × Nat
  | [] => ([], 0)
  | x :: xs =>
    if p x then (xs, 1)
    else
      let r := deleteOne p xs
      (x :: r.1, r.2)

/-- `get_next_sequence("bookid")`: atomic find-one-and-update with
`$inc` and upsert, returning the post-increment value. -/
def getNextSequence (s : DBState) : Int × DBState :=
  (s.bookSeq + 1, { s with bookSeq := s.bookSeq + 1 })

/-! ## Book catalog handlers (`src/routers/books.py`) -/

/-- Request body of `POST /books/` (`models.BookCreate`); the source
performs no validation on `total_copies` (its Pydantic default is 1). -/
structure BookCreate where
  title : String
  author : String
  total_copies : Int := 1
  deriving Repr, DecidableEq

/-- Response model `models.BookResponse`. -/
structure BookResponse where
  id : Int
  title : String
  author : String
  available : Bool
  total_copies : Int
  available_copies : Int
  borrowed_copies : Int
  deriving Repr, DecidableEq

/-- The `find_one({"title": t, "author": a})` lookup used by `add_book`. -/
def findBookByTitleAuthor (s : DBState) (t a : String) : Option Book :=
  s.books.find? (fun b => b.title == t && b.author == a)

/-- The `find_one({"id": book_id})` lookup used throughout the routers. -/
def findBookById (s : DBState) (book_id : Int) : Option Book :=
  s.books.find? (fun b => b.id == book_id)

/-- `add_book` (`POST /books/`): merge copies into an existing
(title, author) record, or create a fresh record with an id from the
sequence generator.  In the merge branch the handler re-reads the book
and reports `borrowed_copies` as `total - available` in the response
(the stored `borrowed_copies` field is not touched). -/
def addBook (s : DBState) (book : BookCreate) : Result BookResponse × DBState :=
  match findBookByTitleAuthor s book.title book.author with
  | some existing_book =>
    let new_total := existing_book.total_copies + book.total_copies
    let new_available := existing_book.available_copies + book.total_copies
    let books' := updateOne (fun b => b.id == existing_book.id)
      (fun b => { b with total_copies := new_total,
                         available_copies := new_available,
                         available := true }) s.books
    let s' := { s with books := books' }
    match findBookById s' existing_book.id with
    | some updated_book =>
      (.ok { id := updated_book.id, title := updated_book.title,
             author := updated_book.author, available := updated_book.available,
             total_copies := updated_book.total_copies,
             available_copies := updated_book.available_copies,
             borrowed_copies :=
               updated_book.total_copies - updated_book.available_copies }, s')
    | none =>
      -- unreachable sequentially: the record just updated is still present
      (.error ⟨500, "Internal Server Error"⟩, s')
  | none =>
    let next := getNextSequence s
    let new_book : Book :=
      { id := next.1, title := book.title, author := book.author,
        total_copies := book.total_copies,
        available_copies := book.total_copies,
        borrowed_copies := 0,
        available := true,
        discontinued := none }
    let s2 := { next.2 with books := next.2.books ++ [new_book] }
    (.ok { id := new_book.id, title := new_book.title, author := new_book.author,
           available := new_book.available, total_copies := new_book.total_copies,
           available_copies := new_book.available_copies,
           borrowed_copies := new_book.borrowed_copies }, s2)

/-- `add_book_copies` (`PATCH /books/{id}/add-copies`). -/
def addBookCopies (s : DBState) (book_id : Int) (copies : Int) :
    Result String × DBState :=
  if copies ≤ 0 then
    (.error ⟨400, "Number of copies must be positive"⟩, s)
  else
    match findBookById s book_id with
    | none => (.error ⟨404, "Book not found"⟩, s)
    | some book =>
      let new_total := book.total_copies + copies
      let new_available := book.available_copies + copies
      let r := updateOneMod (fun b => b.id == book_id)
        (fun b => { b with total_copies := new_total,
                           available_copies := new_available,
                           available := true }) s.books
      let s' := { s with books := r.1 }
      if r.2 == 0 then (.error ⟨404, "Book not found"⟩, s')
      else
        (.ok s!"Added {copies} copies. Total: {new_total}, Available: {new_available}", s')

/-- `remove_book_copies` (`PATCH /books/{id}/remove-copies`). -/
def removeBookCopies (s : DBState) (book_id : Int) (copies : Int) :
    Result String × DBState :=
  if copies ≤ 0 then
    (.error ⟨400, "Number of copies must be positive"⟩, s)
  else
    match findBookById s book_id with
    | none => (.error ⟨404, "Book not found"⟩, s)
    | some book =>
      let available_copies := book.available_copies
      if copies > available_copies then
        (.error ⟨400, s!"Cannot remove {copies} copies. Only {available_copies} copies are available (not borrowed)"⟩, s)
      else
        let new_total := book.total_copies - copies
        let new_available := available_copies - copies
        let is_available := decide (new_available > 0)
        let r := updateOneMod (fun b => b.id == book_id)
          (fun b => { b with total_copies := new_total,
                             available_copies := new_available,
                             available := is_available }) s.books
        let s' := { s with books := r.1 }
        if r.2 == 0 then (.error ⟨404, "Book not found"⟩, s')
        else
          (.ok s!"Removed {copies} copies. Total: {new_total}, Available: {new_available}", s')

/-- `update_book_status` (`PUT /books/{id}`), the legacy bulk-availability
endpoint: force all copies available or all borrowed, bypassing the
ledger. -/
def updateBookStatus (s : DBState) (book_id : Int) (available : Bool) :
    Result String × DBState :=
  match findBookById s book_id with
  | none => (.error ⟨404, "Book not found"⟩, s)
  | some book =>
    let total_copies := book.total_copies
    let new_available := if available then total_copies else 0
    let new_borrowed := if available then 0 else total_copies
    let r := updateOneMod (fun b => b.id == book_id)
      (fun b => { b with available := available,
                         available_copies := new_available,
                         borrowed_copies := new_borrowed }) s.books
    let s' := { s with books := r.1 }
    if r.2 == 0 then (.error ⟨404, "Book not found"⟩, s')
    else (.ok "Book status updated", s')

/-- `delete_book_copies` (`DELETE /books/{id}/discontinue-copies`):
hard delete, guarded by `borrowed_copies > 0`. -/
def deleteBookCopies (s : DBState) (book_id : Int) : Result String × DBState :=
  match findBookById s book_id with
  | none => (.error ⟨404, "Book not found"⟩, s)
  | some book =>
    let borrowed_copies := book.borrowed_copies
    if borrowed_copies > 0 then
      (.error ⟨400, s!"Cannot discontinue book. {borrowed_copies} copies are currently borrowed"⟩, s)
    else
      let title := book.title
      let r := deleteOne (fun b => b.id == book_id) s.books
      let s' := { s with books := r.1 }
      if r.2 == 0 then (.error ⟨404, "Book not found"⟩, s')
      else
        (.ok s!"Book \x27{title}\x27 has been discontinued and removed from the library", s')

/-- `discontinue_book` (`DELETE /books/{id}/discontinue`): zero all
counters, clear `available`, set `discontinued`, keep the record. -/
def discontinueBook (s : DBState) (book_id : Int) : Result String × DBState :=
  match findBookById s book_id with
  | none => (.error ⟨404, "Book not found"⟩, s)
  | some book =>
    let borrowed_copies := book.borrowed_copies
    if borrowed_copies > 0 then
      (.error ⟨400, s!"Cannot discontinue book. {borrowed_copies} copies are currently borrowed"⟩, s)
    else
      let title := book.title
      let r := updateOneMod (fun b => b.id == book_id)
        (fun b => { b with total_copies := 0,
                           available_copies := 0,
                           borrowed_copies := 0,
                           available := false,
                           discontinued := some true }) s.books
      let s' := { s with books := r.1 }
      if r.2 == 0 then (.error ⟨404, "Book not found"⟩, s')
      else (.ok s!"Book \x27{title}\x27 has been discontinued", s')

/-! ## Borrow/return handlers (`src/routers/borrow.py`) -/

/-- The authenticated principal as the handlers use it: the string id and
the role taken from the current-user document. -/
structure Actor where
  id : String
  role : String
  deriving Repr, DecidableEq

/-- The `find_one` for an ACTIVE record of a (user, book) pair used by the
borrow pre-check. -/
def findActiveBorrow (s : DBState) (user_id : String) (book_id : Int) :
    Option BorrowRecord :=
  s.borrow_records.find? (fun r =>
    r.user_id == user_id && r.book_id == book_id && r.returned_at == none)

/-- `borrow_book` (`POST /borrow/{book_id}`). -/
def borrowBook (s : DBState) (book_id : Int) (current_user : Actor) :
    Result BorrowRecord × DBState :=
  match findBookById s book_id with
  | none => (.error ⟨404, "Book not found"⟩, s)
  | some book =>
    let available_copies := book.available_copies
    if available_copies ≤ 0 then
      (.error ⟨400, "No copies of this book are currently available"⟩, s)
    else
      match findActiveBorrow s current_user.id book_id with
      | some _ => (.error ⟨400, "You already have this book borrowed"⟩, s)
      | none =>
        let new_available := available_copies - 1
        let new_borrowed := book.borrowed_copies + 1
        let is_available := decide (new_available > 0)
        let books' := updateOne (fun b => b.id == book_id)
          (fun b => { b with available_copies := new_available,
                             borrowed_copies := new_borrowed,
                             available := is_available }) s.books
        let borrow : BorrowRecord :=
          { oid := s.next_oid, user_id := current_user.id, book_id := book_id,
            borrowed_at := s.clock, returned_at := none }
        let s' := { s with books := books',
                           borrow_records := s.borrow_records ++ [borrow],
                           next_oid := s.next_oid + 1,
                           clock := s.clock + 1 }
        (.ok borrow, s')

/-- `return_book` (`PATCH /borrow/{borrow_id}/return`). -/
def returnBook (s : DBState) (borrow_id : Nat) (current_user : Actor) :
    Result BorrowRecord × DBState :=
  match s.borrow_records.find? (fun r => r.oid == borrow_id) with
  | none => (.error ⟨404, "Borrow record not found"⟩, s)
  | some record =>
    if record.returned_at.isSome then
      (.error ⟨400, "Book already returned"⟩, s)
    else if record.user_id != current_user.id && current_user.role != "admin" then
      (.error ⟨403, "Cannot return someone else\x27s book"⟩, s)
    else
      match findBookById s record.book_id with
      | none => (.error ⟨404, "Book not found"⟩, s)
      | some book =>
        let new_available := book.available_copies + 1
        let new_borrowed := max 0 (book.borrowed_copies - 1)
        let return_time := s.clock
        let records' := updateOne (fun r => r.oid == record.oid)
          (fun r => { r with returned_at := some return_time }) s.borrow_records
        let books' := updateOne (fun b => b.id == record.book_id)
          (fun b => { b with available_copies := new_available,
                             borrowed_copies := new_borrowed,
                             available := true }) s.books
        let s' := { s with borrow_records := records', books := books',
                           clock := s.clock + 1 }
        (.ok { record with returned_at := some return_time }, s')

/-! ## Registration (`src/auth.py`) -/

/-- Request body of `POST /auth/register` (`models.UserCreate`); the
Pydantic default for an absent `role` field is `"member"`, and no
validation restricts its value. -/
structure UserCreate where
  name : String
  email : String
  password : String
  role : String := "member"
  deriving Repr, DecidableEq

/-- Response model `models.UserResponse`. -/
structure UserResponse where
  id : String
  name : String
  email : String
  role : String
  deriving Repr, DecidableEq

/-- `register` (`POST /auth/register`).  The bcrypt hash is an external
collaborator, passed in as `hashPassword`.  The endpoint requires no
authentication and stores the role exactly as supplied. -/
def register (hashPassword : String → String) (s : DBState)
    (user : UserCreate) : Result UserResponse × DBState :=
  match s.users.find? (fun u => u.email == user.email) with
  | some _ => (.error ⟨400, "Email already registered"⟩, s)
  | none =>
    let hashed_pw := hashPassword user.password
    let new_user : UserDoc :=
      { oid := s.next_oid, name := user.name, email := user.email,
        password := hashed_pw, role := user.role }
    let s' := { s with users := s.users ++ [new_user],
                       next_oid := s.next_oid + 1 }
    (.ok { id := toString new_user.oid, name := user.name,
           email := user.email, role := user.role }, s')

/-! ## Operation sequences -/

/-- The public catalog/ledger operations, for stating properties over
arbitrary interleavings of requests. -/
inductive Op where
  | addOrMerge (title author : String) (copies : Int)
  | addCopies (book_id copies : Int)
  | removeCopies (book_id copies : Int)
  | borrow (actor : Actor) (book_id : Int)
  | ret (actor : Actor) (borrow_id : Nat)
  | setBulk (book_id : Int) (available : Bool)
  | discontinue (book_id : Int)
  | deleteCopies (book_id : Int)
  deriving Repr, DecidableEq

/-- Run one public operation, keeping the resulting database state
(a failed request answers an error but the state it leaves behind is
the one the handler produced). -/
def applyOp (s : DBState) : Op → DBState
  | .addOrMerge t a c => (addBook s { title := t, author := a, total_copies := c }).2
  | .addCopies bid c => (addBookCopies s bid c).2
  | .removeCopies bid c => (removeBookCopies s bid c).2
  | .borrow u bid => (borrowBook s bid u).2
  | .ret u rid => (returnBook s rid u).2
  | .setBulk bid av => (updateBookStatus s bid av).2
  | .discontinue bid => (discontinueBook s bid).2
  | .deleteCopies bid => (deleteBookCopies s bid).2

/-- Run a sequence of public operations from a state. -/
def runOps (s : DBState) : List Op → DBState
  | [] => s
  | op :: ops => runOps (applyOp s op) ops

/-! ## Lemmas about the list-level store primitives -/

/-- The number of ACTIVE borrow records that reference a given book. -/
def activeCount (recs : List BorrowRecord) (bid : Int) : Nat :=
  (recs.filter (fun r => r.book_id == bid && r.returned_at == none)).length

/-- The fresh book document inserted by `add_book` when no (title, author)
match exists. -/
def freshBook (s : DBState) (bk : BookCreate) : Book :=
  { id := s.bookSeq + 1, title := bk.title, author := bk.author,
    total_copies := bk.total_copies, available_copies := bk.total_copies,
    borrowed_copies := 0, available := true, discontinued := none }

/-- The borrow document inserted by a successful `borrow_book`. -/
def newBorrowRecord (s : DBState) (u : Actor) (bid : Int) : BorrowRecord :=
  { oid := s.next_oid, user_id := u.id, book_id := bid,
    borrowed_at := s.clock, returned_at := none }

/-- The user document inserted by a successful `register`. -/
def newUserDoc (hash : String → String) (s : DBState) (user : UserCreate) :
    UserDoc :=
  { oid := s.next_oid, name := user.name, email := user.email,
    password := hash user.password, role := user.role }

/-- The reachable-state invariant tying each book's three counters to the
borrow ledger: the counters add up, `available_copies` is non-negative,
`borrowed_copies` equals the number of ACTIVE ledger records for the book,
ids are unique and bounded by the sequence counter, and every ACTIVE
record references a book that is still in the catalog. -/
structure Inv (s : DBState) : Prop where
  sum_eq : ∀ b ∈ s.books,
    b.available_copies + b.borrowed_copies = b.total_copies
  avail_nonneg : ∀ b ∈ s.books, 0 ≤ b.available_copies
  borrowed_eq : ∀ b ∈ s.books,
    b.borrowed_copies = (activeCount s.borrow_records b.id : Int)
  ids_nodup : (s.books.map Book.id).Nodup
  ids_le : ∀ b ∈ s.books, b.id ≤ s.bookSeq
  active_ref : ∀ r ∈ s.borrow_records, r.returned_at = none →
    r.book_id ∈ s.books.map Book.id

/-- The operations permitted by the amended counter-invariant claim:
every `add_or_merge` carries a non-negative copy count, and the legacy
bulk-availability override does not occur. -/
def goodOp : Op → Bool
  | .addOrMerge _ _ c => decide (0 ≤ c)
  | .setBulk _ _ => false
  | _ => true

/-- A concrete admissible operation sequence exercising add, borrow,
return and discontinue. -/
def c1DemoOps : List Op :=
  [Op.addOrMerge "A" "B" 3, Op.borrow ⟨"u", "member"⟩ 1,
   Op.ret ⟨"u", "member"⟩ 0, Op.addCopies 1 2, Op.removeCopies 1 1,
   Op.discontinue 1]

/-- Database holding one book "A"/"B" with two copies. -/
def c3DemoState : DBState := runOps initState [Op.addOrMerge "A" "B" 2]

/-- Database where user "u" has borrowed the single copy of "A"/"B". -/
def c4DemoState : DBState :=
  runOps initState [Op.addOrMerge "A" "B" 1, Op.borrow ⟨"u", "member"⟩ 1]

/-- Database with the discontinued book "A"/"B" (id 1). -/
def c10DemoState : DBState :=
  runOps initState [Op.addOrMerge "A" "B" 1, Op.discontinue 1]

/-- A primitive storage command as issued by the handlers: reads and
writes of the `books` collection, the ledger pre-check and insert, and
the sequence generator's atomic find-one-and-update.  An
`updateOneBooksSet` carries the `$set` payload of the `update_one` call:
absolute values for the fields written (`none` = field not in the
payload). -/
inductive DBCmd where
  | findOneBooks (book_id : Int)
  | findOneBooksByTitleAuthor (title author : String)
  | updateOneBooksSet (book_id : Int)
      (total_copies available_copies borrowed_copies : Option Int)
      (available : Option Bool)
  | insertOneBook (book : Book)
  | findOneActiveBorrow (user_id : String) (book_id : Int)
  | findOneBorrowRecord (borrow_id : Nat)
  | updateOneBorrowRecordSet (oid : Nat) (returned_time : Nat)
  | insertOneBorrowRecord (user_id : String) (book_id : Int)
  | findOneAndUpdateCounterInc (name : String) (amount : Int)
  deriving Repr, DecidableEq

/-- The storage commands issued by `borrow_book`, in program order:
`find_one` on books, `find_one` on the ledger, `update_one` on books
with absolute `$set` values computed from the first read, `insert_one`
on the ledger. -/
def borrowBookTrace (s : DBState) (book_id : Int) (current_user : Actor) :
    List DBCmd :=
  match findBookById s book_id with
  | none => [.findOneBooks book_id]
  | some book =>
    if book.available_copies ≤ 0 then [.findOneBooks book_id]
    else
      match findActiveBorrow s current_user.id book_id with
      | some _ =>
        [.findOneBooks book_id,
         .findOneActiveBorrow current_user.id book_id]
      | none =>
        [.findOneBooks book_id,
         .findOneActiveBorrow current_user.id book_id,
         .updateOneBooksSet book_id none
           (some (book.available_copies - 1))
           (some (book.borrowed_copies + 1))
           (some (decide (book.available_copies - 1 > 0))),
         .insertOneBorrowRecord current_user.id book_id]

/-- The storage commands issued by `add_book_copies`, in program order:
`find_one` on books, then `update_one` with absolute `$set` values
computed from the read. -/
def addBookCopiesTrace (s : DBState) (book_id : Int) (copies : Int) :
    List DBCmd :=
  if copies ≤ 0 then []
  else
    match findBookById s book_id with
    | none => [.findOneBooks book_id]
    | some book =>
      [.findOneBooks book_id,
       .updateOneBooksSet book_id
         (some (book.total_copies + copies))
         (some (book.available_copies + copies)) none (some true)]

/-- The storage commands issued by `remove_book_copies`, in program
order: `find_one` on books, then `update_one` with absolute `$set`
values computed from the read. -/
def removeBookCopiesTrace (s : DBState) (book_id : Int) (copies : Int) :
    List DBCmd :=
  if copies ≤ 0 then []
  else
    match findBookById s book_id with
    | none => [.findOneBooks book_id]
    | some book =>
      if copies > book.available_copies then [.findOneBooks book_id]
      else
        [.findOneBooks book_id,
         .updateOneBooksSet book_id
           (some (book.total_copies - copies))
           (some (book.available_copies - copies)) none
           (some (decide (book.available_copies - copies > 0)))]

/-- The storage commands issued by `return_book`, in program order:
`find_one` on the ledger, `find_one` on books, `update_one` on the
ledger record, then `update_one` on books with absolute `$set` values
computed from the book read. -/
def returnBookTrace (s : DBState) (borrow_id : Nat) (current_user : Actor) :
    List DBCmd :=
  match s.borrow_records.find? (fun r => r.oid == borrow_id) with
  | none => [.findOneBorrowRecord borrow_id]
  | some record =>
    if record.returned_at.isSome then [.findOneBorrowRecord borrow_id]
    else if record.user_id != current_user.id &&
        current_user.role != "admin" then
      [.findOneBorrowRecord borrow_id]
    else
      match findBookById s record.book_id with
      | none => [.findOneBorrowRecord borrow_id, .findOneBooks record.book_id]
      | some book =>
        [.findOneBorrowRecord borrow_id,
         .findOneBooks record.book_id,
         .updateOneBorrowRecordSet record.oid s.clock,
         .updateOneBooksSet record.book_id none
           (some (book.available_copies + 1))
           (some (max 0 (book.borrowed_copies - 1)))
           (some true)]

/-- The storage commands issued by `add_book`, in program order.  The
merge branch reads the book by (title, author) and then issues an
`update_one` keyed by its id with absolute `$set` values computed from
that read, followed by the re-read for the response; the creation branch
runs the sequence generator's atomic find-one-and-update `$inc` and then
an `insert_one` of the fresh document — it mutates no existing book's
counters. -/
def addBookTrace (s : DBState) (book : BookCreate) : List DBCmd :=
  match findBookByTitleAuthor s book.title book.author with
  | some existing_book =>
    [.findOneBooksByTitleAuthor book.title book.author,
     .updateOneBooksSet existing_book.id
       (some (existing_book.total_copies + book.total_copies))
       (some (existing_book.available_copies + book.total_copies)) none
       (some true),
     .findOneBooks existing_book.id]
  | none =>
    [.findOneBooksByTitleAuthor book.title book.author,
     .findOneAndUpdateCounterInc "bookid" 1,
     .insertOneBook (freshBook s book)]

/-- Whether a command writes absolute counter values for the given book. -/
def writesCounters (bid : Int) : DBCmd → Bool
  | .updateOneBooksSet b t av bo _ =>
    b == bid && (t.isSome || av.isSome || bo.isSome)
  | _ => false

/-- Whether a command writes absolute counter values for some book. -/
def writesCountersSome : DBCmd → Bool
  | .updateOneBooksSet _ t av bo _ => t.isSome || av.isSome || bo.isSome
  | _ => false

/-- Whether a command is the storage layer's atomic
find-one-and-update `$inc` — the Sequence Generator's primitive. -/
def isAtomicIncrement : DBCmd → Bool
  | .findOneAndUpdateCounterInc _ _ => true
  | _ => false

/-- A read of the book document (by id, or by title/author in the merge
branch of `add_book`) followed later in the same trace by a separate
write of new absolute counter values for a book — the two-step shape the
claim forbids. -/
def readThenWriteCounters : List DBCmd → Bool
  | [] => false
  | c :: rest =>
    (match c with
     | .findOneBooks b => rest.any (writesCounters b)
     | .findOneBooksByTitleAuthor _ _ => rest.any writesCountersSome
     | _ => false) || readThenWriteCounters rest

/-- Following the claim wording: the trace expresses its counter
mutation as a single atomic conditional update — in particular it never
reads the counters and then writes new counter values as a separate
step. -/
def singleAtomicCounterMutation (trace : List DBCmd) : Bool :=
  !(readThenWriteCounters trace)

/-- Database with three copies of "A"/"B", one of them out with user
"w": every counter mutation has a successful branch from here. -/
def c8DemoState : DBState :=
  runOps initState [Op.addOrMerge "A" "B" 3, Op.borrow ⟨"w", "member"⟩ 1]

theorem find?_decomp {α} {p : α → Bool} {l : List α} {x : α}
    (h : l.find? p = some x) :
    ∃ l1 l2, l = l1 ++ x :: l2 ∧ (∀ y ∈ l1, p y = false) ∧ p x = true := by
  induction l with
  | nil => simp at h
  | cons a as ih =>
    by_cases hp : p a
    · rw [List.find?_cons_of_pos _ hp] at h
      obtain rfl : a = x := Option.some.inj h
      exact ⟨[], as, rfl, by simp, hp⟩
    · rw [List.find?_cons_of_neg _ hp] at h
      obtain ⟨l1, l2, heq, h1, h2⟩ := ih h
      refine ⟨a :: l1, l2, by simp [heq], ?_, h2⟩
      intro y hy
      rcases List.mem_cons.mp hy with rfl | hy
      · simpa using hp
      · exact h1 y hy

theorem updateOne_append_left {α} {p : α → Bool} {f : α → α} {l1 : List α}
    (l2 : List α) (h : ∀ y ∈ l1, p y = false) :
    updateOne p f (l1 ++ l2) = l1 ++ updateOne p f l2 := by
  induction l1 with
  | nil => simp
  | cons a as ih =>
    have ha : p a = false := h a (by simp)
    simp only [List.cons_append, updateOne, ha]
    simp only [Bool.false_eq_true, if_false, List.cons.injEq, true_and]
    exact ih fun y hy => h y (List.mem_cons_of_mem _ hy)

theorem updateOne_cons_pos {α} {p : α → Bool} {f : α → α} {x : α} (l : List α)
    (h : p x = true) : updateOne p f (x :: l) = f x :: l := by
  simp [updateOne, h]

theorem updateOne_of_decomp {α} {p : α → Bool} (f : α → α) {l l1 l2 : List α}
    {x : α} (heq : l = l1 ++ x :: l2) (h1 : ∀ y ∈ l1, p y = false)
    (hx : p x = true) : updateOne p f l = l1 ++ f x :: l2 := by
  subst heq
  rw [updateOne_append_left _ h1, updateOne_cons_pos _ hx]

theorem updateOneMod_fst {α} [DecidableEq α] (p : α → Bool) (f : α → α)
    (l : List α) : (updateOneMod p f l).1 = updateOne p f l := by
  induction l with
  | nil => rfl
  | cons a as ih =>
    by_cases hp : p a <;> simp [updateOneMod, updateOne, hp, ih]

theorem deleteOne_of_decomp {α} {p : α → Bool} {l l1 l2 : List α} {x : α}
    (heq : l = l1 ++ x :: l2) (h1 : ∀ y ∈ l1, p y = false)
    (hx : p x = true) : deleteOne p l = (l1 ++ l2, 1) := by
  subst heq
  induction l1 with
  | nil => simp [deleteOne, hx]
  | cons a as ih =>
    have ha : p a = false := h1 a (by simp)
    have harec := ih fun y hy => h1 y (List.mem_cons_of_mem _ hy)
    simp [deleteOne, ha, harec]

theorem updateOne_map_eq {α β} {p : α → Bool} {f : α → α} (g : α → β)
    (hg : ∀ x, g (f x) = g x) (l : List α) :
    (updateOne p f l).map g = l.map g := by
  induction l with
  | nil => rfl
  | cons a as ih =>
    by_cases hp : p a <;> simp [updateOne, hp, ih, hg]

/-- Two members of a list whose images under an injective-on-the-list map
agree are equal. -/
theorem eq_of_nodup_map {α β} {l : List α} {g : α → β} {x y : α}
    (h : (l.map g).Nodup) (hx : x ∈ l) (hy : y ∈ l) (hxy : g x = g y) :
    x = y := by
  induction l with
  | nil => simp at hx
  | cons a as ih =>
    simp only [List.map_cons, List.nodup_cons] at h
    rcases List.mem_cons.mp hx with rfl | hx' <;>
      rcases List.mem_cons.mp hy with rfl | hy'
    · rfl
    · exact absurd (hxy ▸ List.mem_map_of_mem g hy') h.1
    · exact absurd (hxy ▸ List.mem_map_of_mem g hx') h.1
    · exact ih h.2 hx' hy'

/-! ## The active-borrow count -/

theorem activeCount_nil (bid : Int) : activeCount [] bid = 0 := rfl

theorem activeCount_append (l1 l2 : List BorrowRecord) (bid : Int) :
    activeCount (l1 ++ l2) bid = activeCount l1 bid + activeCount l2 bid := by
  simp [activeCount, List.filter_append]

theorem activeCount_cons (r : BorrowRecord) (l : List BorrowRecord) (bid : Int) :
    activeCount (r :: l) bid =
      (if r.book_id = bid ∧ r.returned_at = none then 1 else 0) +
        activeCount l bid := by
  by_cases h : r.book_id = bid ∧ r.returned_at = none
  · simp [activeCount, List.filter_cons, h.1, h.2, Nat.add_comm]
  · rw [if_neg h]
    have : (r.book_id == bid && r.returned_at == none) = false := by
      rcases Decidable.not_and_iff_or_not.mp h with h' | h' <;> simp [h']
    simp [activeCount, List.filter_cons, this]

theorem activeCount_pos_of_mem {recs : List BorrowRecord} {r : BorrowRecord}
    (hr : r ∈ recs) (ha : r.returned_at = none) :
    1 ≤ activeCount recs r.book_id := by
  induction recs with
  | nil => simp at hr
  | cons a as ih =>
    rcases List.mem_cons.mp hr with rfl | hr'
    · rw [activeCount_cons, if_pos ⟨rfl, ha⟩]; omega
    · rw [activeCount_cons]
      have := ih hr'
      omega

/-! ## Branch characterizations of the handlers -/

theorem addBook_merge_state (s : DBState) (bk : BookCreate) {ex : Book}
    (h : findBookByTitleAuthor s bk.title bk.author = some ex) :
    (addBook s bk).2 =
      { s with books := (updateOne (fun b => b.id == ex.id)
          (fun b => { b with
            total_copies := ex.total_copies + bk.total_copies,
            available_copies := ex.available_copies + bk.total_copies,
            available := true }) s.books) } := by
  simp only [addBook, h]
  split <;> rfl

theorem addBook_fresh (s : DBState) (bk : BookCreate)
    (h : findBookByTitleAuthor s bk.title bk.author = none) :
    addBook s bk =
      (.ok { id := s.bookSeq + 1, title := bk.title, author := bk.author,
             available := true, total_copies := bk.total_copies,
             available_copies := bk.total_copies, borrowed_copies := 0 },
       { s with books := (s.books ++ [freshBook s bk]),
                bookSeq := s.bookSeq + 1 }) := by
  simp [addBook, h, getNextSequence, freshBook]

theorem addBookCopies_nonpos (s : DBState) (bid c : Int) (hc : c ≤ 0) :
    addBookCopies s bid c = (.error ⟨400, "Number of copies must be positive"⟩, s) := by
  simp [addBookCopies, hc]

theorem addBookCopies_notfound (s : DBState) (bid c : Int) (hc : ¬ c ≤ 0)
    (h : findBookById s bid = none) :
    addBookCopies s bid c = (.error ⟨404, "Book not found"⟩, s) := by
  simp [addBookCopies, hc, h]

theorem addBookCopies_state (s : DBState) {book : Book} (bid c : Int)
    (hc : ¬ c ≤ 0) (h : findBookById s bid = some book) :
    (addBookCopies s bid c).2 =
      { s with books := (updateOne (fun b => b.id == bid)
          (fun b => { b with
            total_copies := book.total_copies + c,
            available_copies := book.available_copies + c,
            available := true }) s.books) } := by
  simp only [addBookCopies, if_neg hc, h]
  split <;> simp [updateOneMod_fst]

theorem removeBookCopies_nonpos (s : DBState) (bid c : Int) (hc : c ≤ 0) :
    removeBookCopies s bid c =
      (.error ⟨400, "Number of copies must be positive"⟩, s) := by
  simp [removeBookCopies, hc]

theorem removeBookCopies_notfound (s : DBState) (bid c : Int) (hc : ¬ c ≤ 0)
    (h : findBookById s bid = none) :
    removeBookCopies s bid c = (.error ⟨404, "Book not found"⟩, s) := by
  simp [removeBookCopies, hc, h]

theorem removeBookCopies_excess (s : DBState) {book : Book} (bid c : Int)
    (hc : ¬ c ≤ 0) (h : findBookById s bid = some book)
    (hgt : c > book.available_copies) :
    (removeBookCopies s bid c).2 = s := by
  simp [removeBookCopies, hc, h, hgt]

theorem removeBookCopies_state (s : DBState) {book : Book} (bid c : Int)
    (hc : ¬ c ≤ 0) (h : findBookById s bid = some book)
    (hle : ¬ c > book.available_copies) :
    (removeBookCopies s bid c).2 =
      { s with books := (updateOne (fun b => b.id == bid)
          (fun b => { b with
            total_copies := book.total_copies - c,
            available_copies := book.available_copies - c,
            available := decide (book.available_copies - c > 0) }) s.books) } := by
  simp only [removeBookCopies, if_neg hc, h, if_neg hle]
  split <;> simp [updateOneMod_fst]

theorem updateBookStatus_notfound (s : DBState) (bid : Int) (av : Bool)
    (h : findBookById s bid = none) :
    updateBookStatus s bid av = (.error ⟨404, "Book not found"⟩, s) := by
  simp [updateBookStatus, h]

theorem updateBookStatus_state (s : DBState) {book : Book} (bid : Int)
    (av : Bool) (h : findBookById s bid = some book) :
    (updateBookStatus s bid av).2 =
      { s with books := (updateOne (fun b => b.id == bid)
          (fun b => { b with
            available := av,
            available_copies := if av then book.total_copies else 0,
            borrowed_copies := if av then 0 else book.total_copies }) s.books) } := by
  simp only [updateBookStatus, h]
  split <;> split <;> simp [updateOneMod_fst]

theorem deleteBookCopies_notfound (s : DBState) (bid : Int)
    (h : findBookById s bid = none) :
    deleteBookCopies s bid = (.error ⟨404, "Book not found"⟩, s) := by
  simp [deleteBookCopies, h]

theorem deleteBookCopies_borrowed (s : DBState) {book : Book} (bid : Int)
    (h : findBookById s bid = some book) (hb : book.borrowed_copies > 0) :
    (deleteBookCopies s bid).2 = s := by
  simp [deleteBookCopies, h, hb]

theorem deleteBookCopies_state (s : DBState) {book : Book} (bid : Int)
    (h : findBookById s bid = some book) (hb : ¬ book.borrowed_copies > 0) :
    (deleteBookCopies s bid).2 =
      { s with books := (deleteOne (fun b => b.id == bid) s.books).1 } := by
  simp only [deleteBookCopies, h, if_neg hb]
  split <;> rfl

theorem discontinueBook_notfound (s : DBState) (bid : Int)
    (h : findBookById s bid = none) :
    discontinueBook s bid = (.error ⟨404, "Book not found"⟩, s) := by
  simp [discontinueBook, h]

theorem discontinueBook_borrowed (s : DBState) {book : Book} (bid : Int)
    (h : findBookById s bid = some book) (hb : book.borrowed_copies > 0) :
    (discontinueBook s bid).2 = s := by
  simp [discontinueBook, h, hb]

theorem discontinueBook_state (s : DBState) {book : Book} (bid : Int)
    (h : findBookById s bid = some book) (hb : ¬ book.borrowed_copies > 0) :
    (discontinueBook s bid).2 =
      { s with books := (updateOne (fun b => b.id == bid)
          (fun b => { b with
            total_copies := 0, available_copies := 0, borrowed_copies := 0,
            available := false, discontinued := some true }) s.books) } := by
  simp only [discontinueBook, h, if_neg hb]
  split <;> simp [updateOneMod_fst]

theorem borrowBook_notfound (s : DBState) (bid : Int) (u : Actor)
    (h : findBookById s bid = none) :
    borrowBook s bid u = (.error ⟨404, "Book not found"⟩, s) := by
  simp [borrowBook, h]

theorem borrowBook_nocopies (s : DBState) {book : Book} (bid : Int) (u : Actor)
    (h : findBookById s bid = some book) (h1 : book.available_copies ≤ 0) :
    borrowBook s bid u =
      (.error ⟨400, "No copies of this book are currently available"⟩, s) := by
  simp [borrowBook, h, h1]

theorem borrowBook_already {s : DBState} {book : Book} {bid : Int} {u : Actor}
    {r : BorrowRecord} (h : findBookById s bid = some book)
    (h1 : ¬ book.available_copies ≤ 0)
    (h2 : findActiveBorrow s u.id bid = some r) :
    borrowBook s bid u =
      (.error ⟨400, "You already have this book borrowed"⟩, s) := by
  simp [borrowBook, h, h1, h2]

theorem borrowBook_success (s : DBState) {book : Book} (bid : Int) (u : Actor)
    (h : findBookById s bid = some book) (h1 : ¬ book.available_copies ≤ 0)
    (h2 : findActiveBorrow s u.id bid = none) :
    borrowBook s bid u =
      (.ok (newBorrowRecord s u bid),
       { s with
         books := (updateOne (fun b => b.id == bid)
           (fun b => { b with
             available_copies := book.available_copies - 1,
             borrowed_copies := book.borrowed_copies + 1,
             available := decide (book.available_copies - 1 > 0) }) s.books),
         borrow_records := (s.borrow_records ++ [newBorrowRecord s u bid]),
         next_oid := s.next_oid + 1, clock := s.clock + 1 }) := by
  simp [borrowBook, h, h1, h2, newBorrowRecord]

theorem returnBook_notfound (s : DBState) (rid : Nat) (u : Actor)
    (h : s.borrow_records.find? (fun r => r.oid == rid) = none) :
    returnBook s rid u = (.error ⟨404, "Borrow record not found"⟩, s) := by
  simp [returnBook, h]

theorem returnBook_already {s : DBState} {rid : Nat} {u : Actor}
    {record : BorrowRecord}
    (h : s.borrow_records.find? (fun r => r.oid == rid) = some record)
    (hret : record.returned_at.isSome) :
    returnBook s rid u = (.error ⟨400, "Book already returned"⟩, s) := by
  simp [returnBook, h, hret]

theorem returnBook_forbidden {s : DBState} {rid : Nat} {u : Actor}
    {record : BorrowRecord}
    (h : s.borrow_records.find? (fun r => r.oid == rid) = some record)
    (hact : record.returned_at = none)
    (hperm : record.user_id ≠ u.id ∧ u.role ≠ "admin") :
    returnBook s rid u =
      (.error ⟨403, "Cannot return someone else\x27s book"⟩, s) := by
  simp [returnBook, h, hact, hperm.1, hperm.2]

theorem returnBook_bookgone {s : DBState} {rid : Nat} {u : Actor}
    {record : BorrowRecord}
    (h : s.borrow_records.find? (fun r => r.oid == rid) = some record)
    (hact : record.returned_at = none)
    (hperm : record.user_id = u.id ∨ u.role = "admin")
    (hb : findBookById s record.book_id = none) :
    returnBook s rid u = (.error ⟨404, "Book not found"⟩, s) := by
  have hcond : (record.user_id != u.id && u.role != "admin") = false := by
    rcases hperm with h' | h' <;> simp [h']
  simp [returnBook, h, hact, hcond, hb]

theorem returnBook_success {s : DBState} {record : BorrowRecord} {book : Book}
    (rid : Nat) (u : Actor)
    (h : s.borrow_records.find? (fun r => r.oid == rid) = some record)
    (hact : record.returned_at = none)
    (hperm : record.user_id = u.id ∨ u.role = "admin")
    (hb : findBookById s record.book_id = some book) :
    returnBook s rid u =
      (.ok { record with returned_at := some s.clock },
       { s with
         borrow_records := (updateOne (fun r => r.oid == record.oid)
           (fun r => { r with returned_at := some s.clock }) s.borrow_records),
         books := (updateOne (fun b => b.id == record.book_id)
           (fun b => { b with
             available_copies := book.available_copies + 1,
             borrowed_copies := max 0 (book.borrowed_copies - 1),
             available := true }) s.books),
         clock := s.clock + 1 }) := by
  have hcond : (record.user_id != u.id && u.role != "admin") = false := by
    rcases hperm with h' | h' <;> simp [h']
  simp [returnBook, h, hact, hcond, hb]

/-! ## The copy-accounting invariant -/

theorem Inv_initState : Inv initState := by
  constructor <;> simp [initState]

theorem nodup_middle_not_mem {α β} {l1 l2 : List α} {x : α} (g : α → β)
    (h : ((l1 ++ x :: l2).map g).Nodup) : g x ∉ (l1 ++ l2).map g := by
  have h' : (g x :: ((l1 ++ l2).map g)).Nodup := by
    simpa [List.map_append, List.nodup_middle] using h
  exact (List.nodup_cons.mp h').1

theorem activeCount_eq_zero {recs : List BorrowRecord} {bid : Int}
    (h : ∀ r ∈ recs, r.returned_at = none → r.book_id ≠ bid) :
    activeCount recs bid = 0 := by
  induction recs with
  | nil => rfl
  | cons a as ih =>
    rw [activeCount_cons, if_neg, ih fun r hr => h r (List.mem_cons_of_mem _ hr)]
    rintro ⟨hb, hn⟩
    exact h a (List.mem_cons_self _ _) hn hb

/-- Invariant preservation for a handler that rewrites the counters of one
book (located by id) without touching the ledger or the sequence counter. -/
theorem Inv_updateBook {s : DBState} {book : Book} {bid : Int}
    (hInv : Inv s) (hfind : findBookById s bid = some book)
    (f : Book → Book)
    (hid : ∀ b, (f b).id = b.id)
    (hsum : (f book).available_copies + (f book).borrowed_copies =
      (f book).total_copies)
    (hnn : 0 ≤ (f book).available_copies)
    (hbor : (f book).borrowed_copies =
      (activeCount s.borrow_records book.id : Int)) :
    Inv { s with books := updateOne (fun b => b.id == bid) f s.books } := by
  obtain ⟨l1, l2, heq, hpre, hx⟩ := find?_decomp hfind
  have hup : updateOne (fun b => b.id == bid) f s.books = l1 ++ f book :: l2 :=
    updateOne_of_decomp f heq hpre hx
  have hxid : book.id = bid := by simpa using hx
  have hmap : (l1 ++ f book :: l2).map Book.id = s.books.map Book.id := by
    simp [heq, List.map_append, hid]
  have hmem : ∀ y, y ∈ l1 ++ f book :: l2 → y ∈ s.books ∨ y = f book := by
    intro y hy
    rcases List.mem_append.mp hy with hy1 | hy2
    · exact Or.inl (heq ▸ List.mem_append.mpr (Or.inl hy1))
    · rcases List.mem_cons.mp hy2 with rfl | hy3
      · exact Or.inr rfl
      · exact Or.inl (heq ▸ List.mem_append.mpr
          (Or.inr (List.mem_cons_of_mem _ hy3)))
  constructor
  · intro b hb
    rw [hup] at hb
    rcases hmem b hb with h' | rfl
    · exact hInv.sum_eq b h'
    · exact hsum
  · intro b hb
    rw [hup] at hb
    rcases hmem b hb with h' | rfl
    · exact hInv.avail_nonneg b h'
    · exact hnn
  · intro b hb
    rw [hup] at hb
    rcases hmem b hb with h' | rfl
    · exact hInv.borrowed_eq b h'
    · rw [hid book]
      exact hbor
  · rw [hup, hmap]
    exact hInv.ids_nodup
  · intro b hb
    rw [hup] at hb
    rcases hmem b hb with h' | rfl
    · exact hInv.ids_le b h'
    · rw [hid book]
      exact hInv.ids_le book (by rw [heq]; simp)
  · intro r hr hract
    rw [hup, hmap]
    exact hInv.active_ref r hr hract

/-- Invariant preservation for the fresh-creation branch of `add_book`,
for a non-negative copy count. -/
theorem Inv_freshBook {s : DBState} (bk : BookCreate) (hInv : Inv s)
    (hc : 0 ≤ bk.total_copies) :
    Inv { s with books := s.books ++ [freshBook s bk],
                 bookSeq := s.bookSeq + 1 } := by
  have hnotin : ∀ r ∈ s.borrow_records, r.returned_at = none →
      r.book_id ≠ s.bookSeq + 1 := by
    intro r hr hract
    have := hInv.active_ref r hr hract
    rw [List.mem_map] at this
    obtain ⟨b, hb, hbid⟩ := this
    have := hInv.ids_le b hb
    omega
  have hfmem : ∀ y : Book, y ∈ s.books ++ [freshBook s bk] →
      y ∈ s.books ∨ y = freshBook s bk := by
    intro y hy
    rcases List.mem_append.mp hy with h' | h'
    · exact Or.inl h'
    · exact Or.inr (by simpa using h')
  constructor
  · intro b hb
    rcases hfmem b hb with h' | rfl
    · exact hInv.sum_eq b h'
    · simp [freshBook]
  · intro b hb
    rcases hfmem b hb with h' | rfl
    · exact hInv.avail_nonneg b h'
    · exact hc
  · intro b hb
    rcases hfmem b hb with h' | rfl
    · exact hInv.borrowed_eq b h'
    · have hz : activeCount s.borrow_records (s.bookSeq + 1) = 0 :=
        activeCount_eq_zero hnotin
      simp [freshBook, hz]
  · rw [List.map_append]
    rw [List.nodup_append]
    refine ⟨hInv.ids_nodup, by simp, ?_⟩
    intro i hi
    rw [List.mem_map] at hi
    obtain ⟨b, hb, hbid⟩ := hi
    have := hInv.ids_le b hb
    simp only [List.map_cons, List.map_nil, List.mem_singleton, freshBook]
    omega
  · intro b hb
    rcases hfmem b hb with h' | rfl
    · have := hInv.ids_le b h'
      simp only []
      omega
    · simp [freshBook]
  · intro r hr hract
    have := hInv.active_ref r hr hract
    simp only [List.map_append, List.mem_append]
    exact Or.inl this

/-- Invariant preservation for the hard-delete branch of
`delete_book_copies` (no borrowed copies). -/
theorem Inv_deleteBook {s : DBState} {book : Book} {bid : Int}
    (hInv : Inv s) (hfind : findBookById s bid = some book)
    (hzero : ¬ book.borrowed_copies > 0) :
    Inv { s with books := (deleteOne (fun b => b.id == bid) s.books).1 } := by
  obtain ⟨l1, l2, heq, hpre, hx⟩ := find?_decomp hfind
  have hdel : deleteOne (fun b => b.id == bid) s.books = (l1 ++ l2, 1) :=
    deleteOne_of_decomp heq hpre hx
  have hxid : book.id = bid := by simpa using hx
  have hmem : ∀ y : Book, y ∈ l1 ++ l2 → y ∈ s.books := by
    intro y hy
    rcases List.mem_append.mp hy with h' | h'
    · exact heq ▸ List.mem_append.mpr (Or.inl h')
    · exact heq ▸ List.mem_append.mpr (Or.inr (List.mem_cons_of_mem _ h'))
  have hbookmem : book ∈ s.books := by rw [heq]; simp
  constructor
  · intro b hb
    rw [hdel] at hb
    exact hInv.sum_eq b (hmem b hb)
  · intro b hb
    rw [hdel] at hb
    exact hInv.avail_nonneg b (hmem b hb)
  · intro b hb
    rw [hdel] at hb
    exact hInv.borrowed_eq b (hmem b hb)
  · rw [hdel]
    have hsub : List.Sublist ((l1 ++ l2).map Book.id) (s.books.map Book.id) := by
      rw [heq]
      exact (List.Sublist.append_left (List.sublist_cons_self book l2) l1).map _
    exact hInv.ids_nodup.sublist hsub
  · intro b hb
    rw [hdel] at hb
    exact hInv.ids_le b (hmem b hb)
  · intro r hr hract
    have hcnt : book.borrowed_copies =
        (activeCount s.borrow_records book.id : Int) :=
      hInv.borrowed_eq book hbookmem
    have hne : r.book_id ≠ book.id := by
      intro hcontra
      have h1 : 1 ≤ activeCount s.borrow_records r.book_id :=
        activeCount_pos_of_mem hr hract
      rw [hcontra] at h1
      omega
    have hin := hInv.active_ref r hr hract
    rw [heq, List.map_append, List.map_cons] at hin
    rw [hdel, List.map_append]
    rcases List.mem_append.mp hin with h' | h'
    · exact List.mem_append.mpr (Or.inl h')
    · rcases List.mem_cons.mp h' with h'' | h''
      · exact absurd h'' hne
      · exact List.mem_append.mpr (Or.inr h'')

/-- Invariant preservation for a successful borrow: one copy moves from
available to borrowed and exactly one new ACTIVE ledger record appears. -/
theorem Inv_borrow_state {s : DBState} {book : Book} {bid : Int} (u : Actor)
    (hInv : Inv s) (hfind : findBookById s bid = some book)
    (hpos : ¬ book.available_copies ≤ 0) :
    Inv { s with
      books := (updateOne (fun b => b.id == bid)
        (fun b => { b with
          available_copies := book.available_copies - 1,
          borrowed_copies := book.borrowed_copies + 1,
          available := decide (book.available_copies - 1 > 0) }) s.books),
      borrow_records := (s.borrow_records ++ [newBorrowRecord s u bid]),
      next_oid := s.next_oid + 1, clock := s.clock + 1 } := by
  obtain ⟨l1, l2, heq, hpre, hx⟩ := find?_decomp hfind
  set f : Book → Book := fun b =>
    { b with available_copies := book.available_copies - 1,
             borrowed_copies := book.borrowed_copies + 1,
             available := decide (book.available_copies - 1 > 0) } with hf
  have hup : updateOne (fun b => b.id == bid) f s.books = l1 ++ f book :: l2 :=
    updateOne_of_decomp f heq hpre hx
  have hxid : book.id = bid := by simpa using hx
  have hbookmem : book ∈ s.books := by rw [heq]; simp
  have hnotmem : book.id ∉ (l1 ++ l2).map Book.id :=
    nodup_middle_not_mem Book.id (heq ▸ hInv.ids_nodup)
  have hmap : (l1 ++ f book :: l2).map Book.id = s.books.map Book.id := by
    simp [heq, List.map_append, hf]
  have hcnt : ∀ id2 : Int,
      activeCount (s.borrow_records ++ [newBorrowRecord s u bid]) id2 =
        activeCount s.borrow_records id2 + (if bid = id2 then 1 else 0) := by
    intro id2
    rw [activeCount_append, activeCount_cons, activeCount_nil]
    simp [newBorrowRecord]
  have hmem : ∀ y : Book, y ∈ l1 ++ f book :: l2 →
      (y ∈ l1 ++ l2) ∨ y = f book := by
    intro y hy
    rcases List.mem_append.mp hy with hy1 | hy2
    · exact Or.inl (List.mem_append.mpr (Or.inl hy1))
    · rcases List.mem_cons.mp hy2 with rfl | hy3
      · exact Or.inr rfl
      · exact Or.inl (List.mem_append.mpr (Or.inr hy3))
  have hmemS : ∀ y : Book, y ∈ l1 ++ l2 → y ∈ s.books := by
    intro y hy
    rcases List.mem_append.mp hy with h' | h'
    · exact heq ▸ List.mem_append.mpr (Or.inl h')
    · exact heq ▸ List.mem_append.mpr (Or.inr (List.mem_cons_of_mem _ h'))
  have hsum0 := hInv.sum_eq book hbookmem
  have hbor0 := hInv.borrowed_eq book hbookmem
  constructor
  · intro b hb
    rw [hup] at hb
    rcases hmem b hb with h' | rfl
    · exact hInv.sum_eq b (hmemS b h')
    · simp only [hf]
      omega
  · intro b hb
    rw [hup] at hb
    rcases hmem b hb with h' | rfl
    · exact hInv.avail_nonneg b (hmemS b h')
    · simp only [hf]
      omega
  · intro b hb
    rw [hup] at hb
    rcases hmem b hb with h' | rfl
    · have hne : b.id ≠ bid := by
        intro hcontra
        exact hnotmem (hxid ▸ hcontra ▸ List.mem_map_of_mem Book.id h')
      rw [hcnt b.id, if_neg (fun hcontra => hne hcontra.symm)]
      have := hInv.borrowed_eq b (hmemS b h')
      omega
    · have hfid : (f book).id = book.id := rfl
      rw [hfid, hcnt book.id, if_pos hxid.symm]
      simp only [hf]
      push_cast
      omega
  · rw [hup, hmap]
    exact hInv.ids_nodup
  · intro b hb
    rw [hup] at hb
    rcases hmem b hb with h' | rfl
    · exact hInv.ids_le b (hmemS b h')
    · exact hInv.ids_le book hbookmem
  · intro r hr hract
    rw [hup, hmap]
    rcases List.mem_append.mp hr with h' | h'
    · exact hInv.active_ref r h' hract
    · have : r = newBorrowRecord s u bid := by simpa using h'
      subst this
      have : (newBorrowRecord s u bid).book_id = bid := rfl
      rw [this, ← hxid]
      exact List.mem_map_of_mem Book.id hbookmem

/-- Invariant preservation for a successful return: one ACTIVE record is
closed and the copy moves back from borrowed to available. -/
theorem Inv_return_state {s : DBState} {record : BorrowRecord} {book : Book}
    (hInv : Inv s)
    (hr : s.borrow_records.find? (fun r => r.oid == record.oid) = some record)
    (hact : record.returned_at = none)
    (hb : findBookById s record.book_id = some book) :
    Inv { s with
      borrow_records := (updateOne (fun r => r.oid == record.oid)
        (fun r => { r with returned_at := some s.clock }) s.borrow_records),
      books := (updateOne (fun b => b.id == record.book_id)
        (fun b => { b with
          available_copies := book.available_copies + 1,
          borrowed_copies := max 0 (book.borrowed_copies - 1),
          available := true }) s.books),
      clock := s.clock + 1 } := by
  obtain ⟨q1, q2, hreq, hqpre, hqx⟩ := find?_decomp hr
  obtain ⟨l1, l2, heq, hpre, hx⟩ := find?_decomp hb
  set fR : BorrowRecord → BorrowRecord := fun r =>
    { r with returned_at := some s.clock } with hfR
  set fB : Book → Book := fun b =>
    { b with available_copies := book.available_copies + 1,
             borrowed_copies := max 0 (book.borrowed_copies - 1),
             available := true } with hfB
  have hupR : updateOne (fun r => r.oid == record.oid) fR s.borrow_records =
      q1 ++ fR record :: q2 := updateOne_of_decomp fR hreq hqpre hqx
  have hupB : updateOne (fun b => b.id == record.book_id) fB s.books =
      l1 ++ fB book :: l2 := updateOne_of_decomp fB heq hpre hx
  have hxid : book.id = record.book_id := by simpa using hx
  have hbookmem : book ∈ s.books := by rw [heq]; simp
  have hnotmem : book.id ∉ (l1 ++ l2).map Book.id :=
    nodup_middle_not_mem Book.id (heq ▸ hInv.ids_nodup)
  have hmap : (l1 ++ fB book :: l2).map Book.id = s.books.map Book.id := by
    simp [heq, List.map_append, hfB]
  have hcnt : ∀ id2 : Int,
      activeCount s.borrow_records id2 =
        activeCount (q1 ++ fR record :: q2) id2 +
          (if record.book_id = id2 then 1 else 0) := by
    intro id2
    rw [hreq, activeCount_append, activeCount_cons,
      activeCount_append, activeCount_cons]
    have h1 : fR record = { record with returned_at := some s.clock } := rfl
    by_cases hcase : record.book_id = id2
    · rw [if_pos hcase, if_pos ⟨hcase, hact⟩, if_neg (by simp [h1])]
      omega
    · rw [if_neg hcase, if_neg (by rintro ⟨h', _⟩; exact hcase h'),
        if_neg (by rintro ⟨h', _⟩; exact hcase h')]
      omega
  have hmem : ∀ y : Book, y ∈ l1 ++ fB book :: l2 →
      (y ∈ l1 ++ l2) ∨ y = fB book := by
    intro y hy
    rcases List.mem_append.mp hy with hy1 | hy2
    · exact Or.inl (List.mem_append.mpr (Or.inl hy1))
    · rcases List.mem_cons.mp hy2 with rfl | hy3
      · exact Or.inr rfl
      · exact Or.inl (List.mem_append.mpr (Or.inr hy3))
  have hmemS : ∀ y : Book, y ∈ l1 ++ l2 → y ∈ s.books := by
    intro y hy
    rcases List.mem_append.mp hy with h' | h'
    · exact heq ▸ List.mem_append.mpr (Or.inl h')
    · exact heq ▸ List.mem_append.mpr (Or.inr (List.mem_cons_of_mem _ h'))
  have hrecmem : record ∈ s.borrow_records := by rw [hreq]; simp
  have hbor0 := hInv.borrowed_eq book hbookmem
  have hsum0 := hInv.sum_eq book hbookmem
  have hge1 : 1 ≤ activeCount s.borrow_records book.id := by
    rw [hxid]
    exact activeCount_pos_of_mem hrecmem hact
  constructor
  · intro b hb'
    rw [hupB] at hb'
    rcases hmem b hb' with h' | rfl
    · exact hInv.sum_eq b (hmemS b h')
    · simp only [hfB]
      omega
  · intro b hb'
    rw [hupB] at hb'
    rcases hmem b hb' with h' | rfl
    · exact hInv.avail_nonneg b (hmemS b h')
    · have := hInv.avail_nonneg book hbookmem
      simp only [hfB]
      omega
  · intro b hb'
    rw [hupB] at hb'
    rcases hmem b hb' with h' | rfl
    · have hne : record.book_id ≠ b.id := by
        intro hcontra
        exact hnotmem (hxid ▸ hcontra ▸ List.mem_map_of_mem Book.id h')
      have h0 := hInv.borrowed_eq b (hmemS b h')
      have h1 := hcnt b.id
      rw [if_neg hne] at h1
      simp only [hupR]
      omega
    · have hfid : (fB book).id = book.id := rfl
      have h1 := hcnt book.id
      rw [if_pos hxid.symm] at h1
      simp only [hupR, hfid, hfB]
      have h2 : book.borrowed_copies =
          (activeCount s.borrow_records book.id : Int) := hbor0
      push_cast at h2 ⊢
      omega
  · rw [hupB, hmap]
    exact hInv.ids_nodup
  · intro b hb'
    rw [hupB] at hb'
    rcases hmem b hb' with h' | rfl
    · exact hInv.ids_le b (hmemS b h')
    · exact hInv.ids_le book hbookmem
  · intro r hr' hract
    rw [hupR] at hr'
    rw [hupB, hmap]
    rcases List.mem_append.mp hr' with h' | h'
    · exact hInv.active_ref r
        (hreq ▸ List.mem_append.mpr (Or.inl h')) hract
    · rcases List.mem_cons.mp h' with rfl | h''
      · simp [hfR] at hract
      · exact hInv.active_ref r
          (hreq ▸ List.mem_append.mpr (Or.inr (List.mem_cons_of_mem _ h''))) hract

theorem Inv_applyOp {s : DBState} {op : Op} (hInv : Inv s)
    (hop : goodOp op = true) : Inv (applyOp s op) := by
  cases op with
  | addOrMerge t a c =>
    have hc : (0 : Int) ≤ c := by simpa [goodOp] using hop
    cases hfind : findBookByTitleAuthor s t a with
    | some ex =>
      rw [applyOp, addBook_merge_state s _ hfind]
      have hexmem : ex ∈ s.books := List.mem_of_find?_eq_some hfind
      cases hfid : findBookById s ex.id with
      | none =>
        exfalso
        rw [findBookById, List.find?_eq_none] at hfid
        exact absurd (by simp) (hfid ex hexmem)
      | some book' =>
        have hb'id : book'.id = ex.id := by
          simpa using List.find?_some hfid
        have hb'mem : book' ∈ s.books := List.mem_of_find?_eq_some hfid
        have hb'eq : book' = ex :=
          eq_of_nodup_map hInv.ids_nodup hb'mem hexmem hb'id
        subst hb'eq
        refine Inv_updateBook hInv hfid _ (fun b => rfl) ?_ ?_ ?_
        · have := hInv.sum_eq book' hb'mem
          simp only []
          omega
        · have := hInv.avail_nonneg book' hb'mem
          simp only []
          omega
        · exact hInv.borrowed_eq book' hb'mem
    | none =>
      have hchar := addBook_fresh s { title := t, author := a, total_copies := c } hfind
      simp only [applyOp, hchar]
      exact Inv_freshBook _ hInv hc
  | addCopies bid c =>
    by_cases hc : c ≤ 0
    · simp only [applyOp, addBookCopies_nonpos s bid c hc]
      exact hInv
    · cases hfind : findBookById s bid with
      | none =>
        simp only [applyOp, addBookCopies_notfound s bid c hc hfind]
        exact hInv
      | some book =>
        rw [applyOp, addBookCopies_state s bid c hc hfind]
        have hmem : book ∈ s.books := List.mem_of_find?_eq_some hfind
        refine Inv_updateBook hInv hfind _ (fun b => rfl) ?_ ?_ ?_
        · have := hInv.sum_eq book hmem
          simp only []
          omega
        · have := hInv.avail_nonneg book hmem
          simp only []
          omega
        · exact hInv.borrowed_eq book hmem
  | removeCopies bid c =>
    by_cases hc : c ≤ 0
    · simp only [applyOp, removeBookCopies_nonpos s bid c hc]
      exact hInv
    · cases hfind : findBookById s bid with
      | none =>
        simp only [applyOp, removeBookCopies_notfound s bid c hc hfind]
        exact hInv
      | some book =>
        by_cases hgt : c > book.available_copies
        · rw [applyOp, removeBookCopies_excess s bid c hc hfind hgt]
          exact hInv
        · rw [applyOp, removeBookCopies_state s bid c hc hfind hgt]
          have hmem : book ∈ s.books := List.mem_of_find?_eq_some hfind
          refine Inv_updateBook hInv hfind _ (fun b => rfl) ?_ ?_ ?_
          · have := hInv.sum_eq book hmem
            simp only []
            omega
          · simp only []
            omega
          · exact hInv.borrowed_eq book hmem
  | borrow u bid =>
    cases hfind : findBookById s bid with
    | none =>
      simp only [applyOp, borrowBook_notfound s bid u hfind]
      exact hInv
    | some book =>
      by_cases h1 : book.available_copies ≤ 0
      · simp only [applyOp, borrowBook_nocopies s bid u hfind h1]
        exact hInv
      · cases h2 : findActiveBorrow s u.id bid with
        | some r =>
          simp only [applyOp, borrowBook_already hfind h1 h2]
          exact hInv
        | none =>
          rw [applyOp]
          rw [borrowBook_success s bid u hfind h1 h2]
          exact Inv_borrow_state u hInv hfind h1
  | ret u rid =>
    cases hfound : s.borrow_records.find? (fun r => r.oid == rid) with
    | none =>
      simp only [applyOp, returnBook_notfound s rid u hfound]
      exact hInv
    | some record =>
      cases hret : record.returned_at with
      | some t0 =>
        have hret' : record.returned_at.isSome := by rw [hret]; rfl
        simp only [applyOp, returnBook_already hfound hret']
        exact hInv
      | none =>
        by_cases hperm : record.user_id ≠ u.id ∧ u.role ≠ "admin"
        · simp only [applyOp, returnBook_forbidden hfound hret hperm]
          exact hInv
        · have hperm' : record.user_id = u.id ∨ u.role = "admin" := by
            rcases Decidable.not_and_iff_or_not.mp hperm with h' | h'
            · exact Or.inl (not_not.mp h')
            · exact Or.inr (not_not.mp h')
          cases hbook : findBookById s record.book_id with
          | none =>
            simp only [applyOp, returnBook_bookgone hfound hret hperm' hbook]
            exact hInv
          | some book =>
            have hoid : record.oid = rid := by
              simpa using List.find?_some hfound
            subst hoid
            rw [applyOp]
            rw [returnBook_success record.oid u hfound hret hperm' hbook]
            exact Inv_return_state hInv hfound hret hbook
  | setBulk bid av => simp [goodOp] at hop
  | discontinue bid =>
    cases hfind : findBookById s bid with
    | none =>
      simp only [applyOp, discontinueBook_notfound s bid hfind]
      exact hInv
    | some book =>
      by_cases hbz : book.borrowed_copies > 0
      · rw [applyOp, discontinueBook_borrowed s bid hfind hbz]
        exact hInv
      · rw [applyOp, discontinueBook_state s bid hfind hbz]
        have hmem : book ∈ s.books := List.mem_of_find?_eq_some hfind
        refine Inv_updateBook hInv hfind _ (fun b => rfl) ?_ ?_ ?_
        · simp only []
          omega
        · simp only []
          omega
        · have := hInv.borrowed_eq book hmem
          simp only []
          omega
  | deleteCopies bid =>
    cases hfind : findBookById s bid with
    | none =>
      simp only [applyOp, deleteBookCopies_notfound s bid hfind]
      exact hInv
    | some book =>
      by_cases hbz : book.borrowed_copies > 0
      · rw [applyOp, deleteBookCopies_borrowed s bid hfind hbz]
        exact hInv
      · rw [applyOp, deleteBookCopies_state s bid hfind hbz]
        exact Inv_deleteBook hInv hfind hbz

theorem Inv_runOps {s : DBState} (ops : List Op) (hInv : Inv s)
    (h : ∀ op ∈ ops, goodOp op = true) : Inv (runOps s ops) := by
  induction ops generalizing s with
  | nil => exact hInv
  | cons op ops ih =>
    rw [runOps]
    exact ih (Inv_applyOp hInv (h op (by simp)))
      (fun op' hop' => h op' (List.mem_cons_of_mem _ hop'))

theorem register_duplicate (hash : String → String) (s : DBState)
    {u0 : UserDoc} (user : UserCreate)
    (h : s.users.find? (fun u => u.email == user.email) = some u0) :
    register hash s user = (.error ⟨400, "Email already registered"⟩, s) := by
  simp [register, h]

theorem register_success (hash : String → String) (s : DBState)
    (user : UserCreate)
    (h : s.users.find? (fun u => u.email == user.email) = none) :
    register hash s user =
      (.ok { id := toString s.next_oid, name := user.name,
             email := user.email, role := user.role },
       { s with users := (s.users ++ [newUserDoc hash s user]),
                next_oid := s.next_oid + 1 }) := by
  simp [register, h, newUserDoc]

/-! ## Claim C1 -/

/-- Claim C1 as stated is false on the code: (a) `add_or_merge` performs
no validation, so a single add with a negative copy count yields
`available_copies < 0`; (b) the legacy bulk-availability override zeroes
`borrowed_copies` without touching the ledger, after which returning the
still-ACTIVE record breaks `available + borrowed = total`. -/
theorem counters_claim_violation :
    (∃ b ∈ (runOps initState [Op.addOrMerge "A" "B" (-1)]).books,
      b.available_copies < 0) ∧
    (∃ b ∈ (runOps initState [Op.addOrMerge "A" "B" 1,
        Op.borrow ⟨"u", "member"⟩ 1, Op.setBulk 1 true,
        Op.ret ⟨"u", "member"⟩ 0]).books,
      b.available_copies + b.borrowed_copies ≠ b.total_copies) := by
  decide

/-- Claim C1 (amended): after every sequence of the public operations in
which each `add_or_merge` is called with a non-negative copy count and
`set_bulk_availability` does not occur, every book satisfies
`available_copies + borrowed_copies = total_copies` with both counters
non-negative. -/
theorem counters_invariant_good_ops (ops : List Op)
    (hgood : ∀ op ∈ ops, goodOp op = true) :
    ∀ b ∈ (runOps initState ops).books,
      b.available_copies + b.borrowed_copies = b.total_copies ∧
      0 ≤ b.available_copies ∧ 0 ≤ b.borrowed_copies := by
  have hInv := Inv_runOps ops Inv_initState hgood
  intro b hb
  refine ⟨hInv.sum_eq b hb, hInv.avail_nonneg b hb, ?_⟩
  have := hInv.borrowed_eq b hb
  omega

theorem counters_invariant_good_ops_witness :
    (∀ op ∈ c1DemoOps, goodOp op = true) ∧
    (∀ b ∈ (runOps initState c1DemoOps).books,
      b.available_copies + b.borrowed_copies = b.total_copies ∧
      0 ≤ b.available_copies ∧ 0 ≤ b.borrowed_copies) :=
  ⟨by decide, counters_invariant_good_ops c1DemoOps (by decide)⟩

/-! ## Claim C2 -/

/-- Claim C2 fails in the creation branch: `add_book` with 0 copies stores
`available = true` although `copies > 0` is false (the handler sets the
flag unconditionally). -/
theorem add_or_merge_claim_violation :
    ((addBook initState { title := "T", author := "A", total_copies := 0 }).2.books.map
      Book.available = [true]) ∧ ¬ ((0 : Int) > 0) := by
  decide

/-- Claim C2 (amended): if a book with the same (title, author) exists,
`add_or_merge` adds `copies` to both `total_copies` and
`available_copies` of that single record and sets `available = true`,
leaving every other record and the id list unchanged; otherwise it
creates one record with a fresh id from the sequence generator,
`total_copies = available_copies = copies`, `borrowed_copies = 0`, and
`available = true` unconditionally (not `copies > 0`). -/
theorem add_or_merge_spec (s : DBState) (t a : String) (c : Int)
    (hnodup : (s.books.map Book.id).Nodup) :
    (∀ ex, findBookByTitleAuthor s t a = some ex →
      ∃ b', b' ∈ (addBook s { title := t, author := a, total_copies := c }).2.books ∧
        b'.id = ex.id ∧ b'.title = ex.title ∧ b'.author = ex.author ∧
        b'.total_copies = ex.total_copies + c ∧
        b'.available_copies = ex.available_copies + c ∧
        b'.available = true ∧ b'.discontinued = ex.discontinued ∧
        (addBook s { title := t, author := a, total_copies := c }).2.books.map Book.id =
          s.books.map Book.id ∧
        (addBook s { title := t, author := a, total_copies := c }).2.bookSeq = s.bookSeq ∧
        (∀ b'', b'' ∈ (addBook s { title := t, author := a, total_copies := c }).2.books →
          b''.id ≠ ex.id → b'' ∈ s.books)) ∧
    (findBookByTitleAuthor s t a = none →
      (addBook s { title := t, author := a, total_copies := c }).2.books =
        s.books ++ [freshBook s { title := t, author := a, total_copies := c }] ∧
      (addBook s { title := t, author := a, total_copies := c }).2.bookSeq =
        s.bookSeq + 1 ∧
      freshBook s { title := t, author := a, total_copies := c } =
        { id := s.bookSeq + 1, title := t, author := a, total_copies := c,
          available_copies := c, borrowed_copies := 0, available := true,
          discontinued := none }) := by
  constructor
  · intro ex hfind
    rw [addBook_merge_state s _ hfind]
    have hexmem : ex ∈ s.books := List.mem_of_find?_eq_some hfind
    cases hfid : findBookById s ex.id with
    | none =>
      exfalso
      rw [findBookById, List.find?_eq_none] at hfid
      exact absurd (by simp) (hfid ex hexmem)
    | some book' =>
      have hb'id : book'.id = ex.id := by simpa using List.find?_some hfid
      have hb'mem : book' ∈ s.books := List.mem_of_find?_eq_some hfid
      have hb'eq : book' = ex := eq_of_nodup_map hnodup hb'mem hexmem hb'id
      subst hb'eq
      obtain ⟨l1, l2, heq, hpre, hx⟩ := find?_decomp hfid
      set f : Book → Book := fun b =>
        { b with total_copies := book'.total_copies + c,
                 available_copies := book'.available_copies + c,
                 available := true } with hf
      have hup : updateOne (fun b => b.id == book'.id) f s.books =
          l1 ++ f book' :: l2 := updateOne_of_decomp f heq hpre hx
      refine ⟨f book', ?_, rfl, rfl, rfl, rfl, rfl, rfl, rfl, ?_, rfl, ?_⟩
      · simp only [hup]
        exact List.mem_append.mpr (Or.inr (List.mem_cons_self _ _))
      · simp only [hup]
        simp [heq, List.map_append, hf]
      · intro b'' hb'' hne
        simp only [hup] at hb''
        rcases List.mem_append.mp hb'' with h' | h'
        · exact heq ▸ List.mem_append.mpr (Or.inl h')
        · rcases List.mem_cons.mp h' with rfl | h''
          · exact absurd rfl hne
          · exact heq ▸ List.mem_append.mpr (Or.inr (List.mem_cons_of_mem _ h''))
  · intro hfind
    have hchar := addBook_fresh s { title := t, author := a, total_copies := c } hfind
    refine ⟨?_, ?_, rfl⟩
    · rw [hchar]
    · rw [hchar]

theorem add_or_merge_spec_witness :
    ((runOps initState [Op.addOrMerge "A" "B" 3, Op.addOrMerge "A" "B" 2]).books.map
        (fun b => (b.total_copies, b.available_copies)) = [(5, 5)]) ∧
    (∃ b', b' ∈ (addBook (runOps initState [Op.addOrMerge "A" "B" 3])
        { title := "A", author := "B", total_copies := 2 }).2.books ∧
      b'.id = 1 ∧ b'.title = "A" ∧ b'.author = "B" ∧
      b'.total_copies = 3 + 2 ∧ b'.available_copies = 3 + 2 ∧
      b'.available = true ∧ b'.discontinued = none ∧
      (addBook (runOps initState [Op.addOrMerge "A" "B" 3])
        { title := "A", author := "B", total_copies := 2 }).2.books.map Book.id =
        (runOps initState [Op.addOrMerge "A" "B" 3]).books.map Book.id ∧
      (addBook (runOps initState [Op.addOrMerge "A" "B" 3])
        { title := "A", author := "B", total_copies := 2 }).2.bookSeq =
        (runOps initState [Op.addOrMerge "A" "B" 3]).bookSeq ∧
      (∀ b'', b'' ∈ (addBook (runOps initState [Op.addOrMerge "A" "B" 3])
          { title := "A", author := "B", total_copies := 2 }).2.books →
        b''.id ≠ 1 → b'' ∈ (runOps initState [Op.addOrMerge "A" "B" 3]).books)) := by
  constructor
  · decide
  · have h := (add_or_merge_spec (runOps initState [Op.addOrMerge "A" "B" 3])
      "A" "B" 2 (by decide)).1
        { id := 1, title := "A", author := "B", total_copies := 3,
          available_copies := 3, borrowed_copies := 0, available := true,
          discontinued := none } (by decide)
    exact h

/-! ## Claim C3 -/

/-- Claim C3 fails as stated: after a user borrows the last copy, that
same user's second borrow — for a (user, book) pair that does have an
ACTIVE record — fails with the no-copies (FailedPrecondition) error, not
the already-borrowed (Conflict) error, because the availability check
runs before the duplicate-borrow check. -/
theorem second_borrow_error_violation :
    borrowBook (runOps initState [Op.addOrMerge "A" "B" 1,
        Op.borrow ⟨"u", "member"⟩ 1]) 1 ⟨"u", "member"⟩ =
      (.error ⟨400, "No copies of this book are currently available"⟩,
       runOps initState [Op.addOrMerge "A" "B" 1,
         Op.borrow ⟨"u", "member"⟩ 1]) ∧
    (∃ r ∈ (runOps initState [Op.addOrMerge "A" "B" 1,
        Op.borrow ⟨"u", "member"⟩ 1]).borrow_records,
      r.user_id = "u" ∧ r.book_id = 1 ∧ r.returned_at = none) := by
  decide

/-- Claim C3 (amended): for a book with `available_copies > 0` and no
ACTIVE record for the (user, book) pair, borrow decrements
`available_copies` by 1, increments `borrowed_copies` by 1, sets
`available = (available_copies > 0)` on the new value, and appends
exactly one ACTIVE record; with `available_copies > 0` and an existing
ACTIVE record it fails with the already-borrowed (Conflict) error; with
`available_copies ≤ 0` it fails with the no-copies (FailedPrecondition)
error even when the same user already holds the book.  Failures leave the
state unchanged. -/
theorem borrow_spec (s : DBState) (bid : Int) (u : Actor) (book : Book)
    (hfind : findBookById s bid = some book) :
    (¬ book.available_copies ≤ 0 → findActiveBorrow s u.id bid = none →
      (borrowBook s bid u).1 = .ok (newBorrowRecord s u bid) ∧
      (newBorrowRecord s u bid).returned_at = none ∧
      (borrowBook s bid u).2.borrow_records =
        s.borrow_records ++ [newBorrowRecord s u bid] ∧
      (∃ b', b' ∈ (borrowBook s bid u).2.books ∧ b'.id = bid ∧
        b'.available_copies = book.available_copies - 1 ∧
        b'.borrowed_copies = book.borrowed_copies + 1 ∧
        b'.available = decide (book.available_copies - 1 > 0)) ∧
      (borrowBook s bid u).2.books.map Book.id = s.books.map Book.id ∧
      (∀ b'', b'' ∈ (borrowBook s bid u).2.books → b''.id ≠ bid →
        b'' ∈ s.books)) ∧
    (¬ book.available_copies ≤ 0 →
      ∀ r0, findActiveBorrow s u.id bid = some r0 →
      borrowBook s bid u =
        (.error ⟨400, "You already have this book borrowed"⟩, s)) ∧
    (book.available_copies ≤ 0 →
      borrowBook s bid u =
        (.error ⟨400, "No copies of this book are currently available"⟩, s)) := by
  refine ⟨?_, ?_, ?_⟩
  · intro h1 h2
    rw [borrowBook_success s bid u hfind h1 h2]
    obtain ⟨l1, l2, heq, hpre, hx⟩ := find?_decomp hfind
    have hxid : book.id = bid := by simpa using hx
    set f : Book → Book := fun b =>
      { b with available_copies := book.available_copies - 1,
               borrowed_copies := book.borrowed_copies + 1,
               available := decide (book.available_copies - 1 > 0) } with hf
    have hup : updateOne (fun b => b.id == bid) f s.books =
        l1 ++ f book :: l2 := updateOne_of_decomp f heq hpre hx
    refine ⟨rfl, rfl, rfl, ⟨f book, ?_, hxid, rfl, rfl, rfl⟩, ?_, ?_⟩
    · simp only [hup]
      exact List.mem_append.mpr (Or.inr (List.mem_cons_self _ _))
    · simp only [hup]
      simp [heq, List.map_append, hf]
    · intro b'' hb'' hne
      simp only [hup] at hb''
      rcases List.mem_append.mp hb'' with h' | h'
      · exact heq ▸ List.mem_append.mpr (Or.inl h')
      · rcases List.mem_cons.mp h' with rfl | h''
        · exact absurd hxid hne
        · exact heq ▸ List.mem_append.mpr (Or.inr (List.mem_cons_of_mem _ h''))
  · intro h1 r0 h2
    exact borrowBook_already hfind h1 h2
  · intro h1
    exact borrowBook_nocopies s bid u hfind h1

theorem borrow_spec_witness :
    (borrowBook c3DemoState 1 ⟨"u", "member"⟩).1 =
      .ok (newBorrowRecord c3DemoState ⟨"u", "member"⟩ 1) ∧
    (newBorrowRecord c3DemoState ⟨"u", "member"⟩ 1).returned_at = none ∧
    (borrowBook c3DemoState 1 ⟨"u", "member"⟩).2.borrow_records =
      c3DemoState.borrow_records ++
        [newBorrowRecord c3DemoState ⟨"u", "member"⟩ 1] ∧
    (∃ b', b' ∈ (borrowBook c3DemoState 1 ⟨"u", "member"⟩).2.books ∧
      b'.id = 1 ∧ b'.available_copies = 2 - 1 ∧ b'.borrowed_copies = 0 + 1 ∧
      b'.available = decide ((2 : Int) - 1 > 0)) ∧
    (borrowBook c3DemoState 1 ⟨"u", "member"⟩).2.books.map Book.id =
      c3DemoState.books.map Book.id ∧
    (∀ b'', b'' ∈ (borrowBook c3DemoState 1 ⟨"u", "member"⟩).2.books →
      b''.id ≠ 1 → b'' ∈ c3DemoState.books) := by
  have h := (borrow_spec c3DemoState 1 ⟨"u", "member"⟩
    { id := 1, title := "A", author := "B", total_copies := 2,
      available_copies := 2, borrowed_copies := 0, available := true,
      discontinued := none } (by decide)).1 (by decide) (by decide)
  exact h

/-! ## Claim C4 -/

theorem find?_of_decomp {α} {p : α → Bool} {l1 l2 : List α} {x : α}
    (h1 : ∀ y ∈ l1, p y = false) (hx : p x = true) :
    (l1 ++ x :: l2).find? p = some x := by
  induction l1 with
  | nil => simpa using List.find?_cons_of_pos l2 hx
  | cons a as ih =>
    have ha : p a = false := h1 a (by simp)
    rw [List.cons_append, List.find?_cons_of_neg _ (by simp [ha])]
    exact ih fun y hy => h1 y (List.mem_cons_of_mem _ hy)

/-- Claim C4: for an ACTIVE record whose actor is the borrower or an
admin and whose book still exists, return increments the book's
`available_copies` by 1, decrements `borrowed_copies` by 1 floored at 0,
sets `available = true` unconditionally, and stamps `returned_at`; any
further return of the same record fails with the already-returned
(Conflict) error and leaves the whole state unchanged. -/
theorem return_spec (s : DBState) (rid : Nat) (u : Actor)
    (record : BorrowRecord) (book : Book)
    (hr : s.borrow_records.find? (fun r => r.oid == rid) = some record) :
    (record.returned_at = none →
     (record.user_id = u.id ∨ u.role = "admin") →
     findBookById s record.book_id = some book →
      (returnBook s rid u).1 = .ok { record with returned_at := some s.clock } ∧
      (∃ b', b' ∈ (returnBook s rid u).2.books ∧ b'.id = record.book_id ∧
        b'.available_copies = book.available_copies + 1 ∧
        b'.borrowed_copies = max 0 (book.borrowed_copies - 1) ∧
        b'.available = true) ∧
      (∃ r', r' ∈ (returnBook s rid u).2.borrow_records ∧
        r'.oid = record.oid ∧ r'.returned_at = some s.clock) ∧
      (returnBook s rid u).2.books.map Book.id = s.books.map Book.id ∧
      (∀ b'', b'' ∈ (returnBook s rid u).2.books → b''.id ≠ record.book_id →
        b'' ∈ s.books) ∧
      (∀ u2 : Actor, returnBook (returnBook s rid u).2 rid u2 =
        (.error ⟨400, "Book already returned"⟩, (returnBook s rid u).2))) ∧
    (record.returned_at.isSome →
      returnBook s rid u = (.error ⟨400, "Book already returned"⟩, s)) := by
  have hoid : record.oid = rid := by simpa using List.find?_some hr
  subst hoid
  constructor
  · intro hact hperm hb
    rw [returnBook_success record.oid u hr hact hperm hb]
    obtain ⟨q1, q2, hreq, hqpre, hqx⟩ := find?_decomp hr
    obtain ⟨l1, l2, heq, hpre, hx⟩ := find?_decomp hb
    have hxid : book.id = record.book_id := by simpa using hx
    set fR : BorrowRecord → BorrowRecord := fun r =>
      { r with returned_at := some s.clock } with hfR
    set fB : Book → Book := fun b =>
      { b with available_copies := book.available_copies + 1,
               borrowed_copies := max 0 (book.borrowed_copies - 1),
               available := true } with hfB
    have hupR : updateOne (fun r => r.oid == record.oid) fR s.borrow_records =
        q1 ++ fR record :: q2 := updateOne_of_decomp fR hreq hqpre hqx
    have hupB : updateOne (fun b => b.id == record.book_id) fB s.books =
        l1 ++ fB book :: l2 := updateOne_of_decomp fB heq hpre hx
    refine ⟨rfl, ⟨fB book, ?_, hxid, rfl, rfl, rfl⟩, ⟨fR record, ?_, rfl, rfl⟩,
      ?_, ?_, ?_⟩
    · simp only [hupB]
      exact List.mem_append.mpr (Or.inr (List.mem_cons_self _ _))
    · simp only [hupR]
      exact List.mem_append.mpr (Or.inr (List.mem_cons_self _ _))
    · simp only [hupB]
      simp [heq, List.map_append, hfB]
    · intro b'' hb'' hne
      simp only [hupB] at hb''
      rcases List.mem_append.mp hb'' with h' | h'
      · exact heq ▸ List.mem_append.mpr (Or.inl h')
      · rcases List.mem_cons.mp h' with rfl | h''
        · exact absurd hxid hne
        · exact heq ▸ List.mem_append.mpr (Or.inr (List.mem_cons_of_mem _ h''))
    · intro u2
      have hfind2 : (updateOne (fun r => r.oid == record.oid) fR
          s.borrow_records).find? (fun r => r.oid == record.oid) =
          some (fR record) := by
        rw [hupR]
        exact find?_of_decomp hqpre (by simp)
      exact returnBook_already hfind2 rfl
  · intro hret
    exact returnBook_already hr hret

theorem return_spec_witness :
    (returnBook c4DemoState 0 ⟨"u", "member"⟩).1 =
      .ok { oid := 0, user_id := "u", book_id := 1, borrowed_at := 0,
            returned_at := some c4DemoState.clock } ∧
    (∃ b', b' ∈ (returnBook c4DemoState 0 ⟨"u", "member"⟩).2.books ∧
      b'.id = 1 ∧ b'.available_copies = 0 + 1 ∧
      b'.borrowed_copies = max 0 (1 - 1) ∧ b'.available = true) ∧
    (∃ r', r' ∈ (returnBook c4DemoState 0 ⟨"u", "member"⟩).2.borrow_records ∧
      r'.oid = 0 ∧ r'.returned_at = some c4DemoState.clock) ∧
    (returnBook c4DemoState 0 ⟨"u", "member"⟩).2.books.map Book.id =
      c4DemoState.books.map Book.id ∧
    (∀ b'', b'' ∈ (returnBook c4DemoState 0 ⟨"u", "member"⟩).2.books →
      b''.id ≠ 1 → b'' ∈ c4DemoState.books) ∧
    (∀ u2 : Actor, returnBook (returnBook c4DemoState 0 ⟨"u", "member"⟩).2 0 u2 =
      (.error ⟨400, "Book already returned"⟩,
       (returnBook c4DemoState 0 ⟨"u", "member"⟩).2)) := by
  have h := (return_spec c4DemoState 0 ⟨"u", "member"⟩
    { oid := 0, user_id := "u", book_id := 1, borrowed_at := 0,
      returned_at := none }
    { id := 1, title := "A", author := "B", total_copies := 1,
      available_copies := 0, borrowed_copies := 1, available := false,
      discontinued := none } (by decide)).1 rfl (Or.inl rfl) (by decide)
  exact h

/-! ## Claim C5 -/

/-- Claim C5: borrow answers NotFound when the book is absent (the
existence check runs before the availability check, so an absent book
never yields the no-copies error), FailedPrecondition when the book
exists with `available_copies ≤ 0`, and every failed borrow returns the
database state unchanged — counters and ledger included. -/
theorem borrow_failure_spec (s : DBState) (bid : Int) (u : Actor) :
    (findBookById s bid = none →
      borrowBook s bid u = (.error ⟨404, "Book not found"⟩, s)) ∧
    (∀ book, findBookById s bid = some book → book.available_copies ≤ 0 →
      borrowBook s bid u =
        (.error ⟨400, "No copies of this book are currently available"⟩, s)) ∧
    (∀ e, (borrowBook s bid u).1 = .error e → (borrowBook s bid u).2 = s) := by
  refine ⟨?_, ?_, ?_⟩
  · intro h
    exact borrowBook_notfound s bid u h
  · intro book hfind h1
    exact borrowBook_nocopies s bid u hfind h1
  · intro e he
    cases hfind : findBookById s bid with
    | none => rw [borrowBook_notfound s bid u hfind]
    | some book =>
      by_cases h1 : book.available_copies ≤ 0
      · rw [borrowBook_nocopies s bid u hfind h1]
      · cases h2 : findActiveBorrow s u.id bid with
        | some r => rw [borrowBook_already hfind h1 h2]
        | none =>
          rw [borrowBook_success s bid u hfind h1 h2] at he
          simp at he

theorem borrow_failure_spec_witness :
    borrowBook initState 1 ⟨"u", "member"⟩ =
      (.error ⟨404, "Book not found"⟩, initState) ∧
    borrowBook c4DemoState 1 ⟨"v", "member"⟩ =
      (.error ⟨400, "No copies of this book are currently available"⟩,
       c4DemoState) ∧
    (borrowBook c4DemoState 1 ⟨"v", "member"⟩).2 = c4DemoState := by
  refine ⟨(borrow_failure_spec initState 1 ⟨"u", "member"⟩).1 (by decide),
    (borrow_failure_spec c4DemoState 1 ⟨"v", "member"⟩).2.1
      { id := 1, title := "A", author := "B", total_copies := 1,
        available_copies := 0, borrowed_copies := 1, available := false,
        discontinued := none } (by decide) (by decide),
    (borrow_failure_spec c4DemoState 1 ⟨"v", "member"⟩).2.2
      ⟨400, "No copies of this book are currently available"⟩ (by decide)⟩

/-! ## Claim C6 -/

/-- Claim C6: for a book with borrowed copies out, both the hard delete
and the soft discontinue fail and leave the state untouched; with
`borrowed_copies = 0`, delete removes exactly that record and
discontinue zeroes all three counters, clears `available`, sets
`discontinued = true`, and keeps the record (and every other record). -/
theorem discontinue_delete_spec (s : DBState) (bid : Int) (book : Book)
    (hnodup : (s.books.map Book.id).Nodup)
    (hfind : findBookById s bid = some book) :
    (book.borrowed_copies > 0 →
      (deleteBookCopies s bid).2 = s ∧
      (∃ e, (deleteBookCopies s bid).1 = .error e ∧ e.status = 400) ∧
      (discontinueBook s bid).2 = s ∧
      (∃ e, (discontinueBook s bid).1 = .error e ∧ e.status = 400)) ∧
    (book.borrowed_copies = 0 →
      ((deleteBookCopies s bid).2.books.length + 1 = s.books.length ∧
       (∀ b', b' ∈ (deleteBookCopies s bid).2.books ↔
          b' ∈ s.books ∧ b'.id ≠ bid)) ∧
      ((∃ b', b' ∈ (discontinueBook s bid).2.books ∧ b'.id = bid ∧
          b'.total_copies = 0 ∧ b'.available_copies = 0 ∧
          b'.borrowed_copies = 0 ∧ b'.available = false ∧
          b'.discontinued = some true) ∧
       (discontinueBook s bid).2.books.length = s.books.length ∧
       (∀ b'', b'' ∈ (discontinueBook s bid).2.books → b''.id ≠ bid →
         b'' ∈ s.books))) := by
  obtain ⟨l1, l2, heq, hpre, hx⟩ := find?_decomp hfind
  have hxid : book.id = bid := by simpa using hx
  have hnotmem : book.id ∉ (l1 ++ l2).map Book.id :=
    nodup_middle_not_mem Book.id (heq ▸ hnodup)
  constructor
  · intro hbz
    refine ⟨deleteBookCopies_borrowed s bid hfind hbz, ?_,
      discontinueBook_borrowed s bid hfind hbz, ?_⟩
    · simp only [deleteBookCopies, hfind]
      rw [if_pos hbz]
      exact ⟨_, rfl, rfl⟩
    · simp only [discontinueBook, hfind]
      rw [if_pos hbz]
      exact ⟨_, rfl, rfl⟩
  · intro hbz0
    have hbz : ¬ book.borrowed_copies > 0 := by omega
    constructor
    · rw [deleteBookCopies_state s bid hfind hbz]
      have hdel : deleteOne (fun b => b.id == bid) s.books = (l1 ++ l2, 1) :=
        deleteOne_of_decomp heq hpre hx
      rw [hdel]
      constructor
      · simp [heq]
        omega
      · intro b'
        constructor
        · intro hb'
          have hne : b'.id ≠ bid := by
            intro hcontra
            exact hnotmem (hxid ▸ hcontra ▸ List.mem_map_of_mem Book.id hb')
          refine ⟨?_, hne⟩
          rcases List.mem_append.mp hb' with h' | h'
          · exact heq ▸ List.mem_append.mpr (Or.inl h')
          · exact heq ▸ List.mem_append.mpr (Or.inr (List.mem_cons_of_mem _ h'))
        · rintro ⟨hb', hne⟩
          rw [heq] at hb'
          rcases List.mem_append.mp hb' with h' | h'
          · exact List.mem_append.mpr (Or.inl h')
          · rcases List.mem_cons.mp h' with rfl | h''
            · exact absurd hxid hne
            · exact List.mem_append.mpr (Or.inr h'')
    · rw [discontinueBook_state s bid hfind hbz]
      set f : Book → Book := fun b =>
        { b with total_copies := 0, available_copies := 0,
                 borrowed_copies := 0, available := false,
                 discontinued := some true } with hf
      have hup : updateOne (fun b => b.id == bid) f s.books =
          l1 ++ f book :: l2 := updateOne_of_decomp f heq hpre hx
      refine ⟨⟨f book, ?_, hxid, rfl, rfl, rfl, rfl, rfl⟩, ?_, ?_⟩
      · simp only [hup]
        exact List.mem_append.mpr (Or.inr (List.mem_cons_self _ _))
      · simp only [hup]
        simp [heq]
      · intro b'' hb'' hne
        simp only [hup] at hb''
        rcases List.mem_append.mp hb'' with h' | h'
        · exact heq ▸ List.mem_append.mpr (Or.inl h')
        · rcases List.mem_cons.mp h' with rfl | h''
          · exact absurd hxid hne
          · exact heq ▸ List.mem_append.mpr (Or.inr (List.mem_cons_of_mem _ h''))

theorem discontinue_delete_spec_witness :
    ((deleteBookCopies c4DemoState 1).2 = c4DemoState ∧
     (∃ e, (deleteBookCopies c4DemoState 1).1 = .error e ∧ e.status = 400) ∧
     (discontinueBook c4DemoState 1).2 = c4DemoState ∧
     (∃ e, (discontinueBook c4DemoState 1).1 = .error e ∧ e.status = 400)) ∧
    (((deleteBookCopies c3DemoState 1).2.books.length + 1 =
        c3DemoState.books.length ∧
      (∀ b', b' ∈ (deleteBookCopies c3DemoState 1).2.books ↔
        b' ∈ c3DemoState.books ∧ b'.id ≠ 1)) ∧
     ((∃ b', b' ∈ (discontinueBook c3DemoState 1).2.books ∧ b'.id = 1 ∧
        b'.total_copies = 0 ∧ b'.available_copies = 0 ∧
        b'.borrowed_copies = 0 ∧ b'.available = false ∧
        b'.discontinued = some true) ∧
      (discontinueBook c3DemoState 1).2.books.length =
        c3DemoState.books.length ∧
      (∀ b'', b'' ∈ (discontinueBook c3DemoState 1).2.books → b''.id ≠ 1 →
        b'' ∈ c3DemoState.books))) := by
  refine ⟨(discontinue_delete_spec c4DemoState 1
      { id := 1, title := "A", author := "B", total_copies := 1,
        available_copies := 0, borrowed_copies := 1, available := false,
        discontinued := none } (by decide) (by decide)).1 (by decide),
    (discontinue_delete_spec c3DemoState 1
      { id := 1, title := "A", author := "B", total_copies := 2,
        available_copies := 2, borrowed_copies := 0, available := true,
        discontinued := none } (by decide) (by decide)).2 (by decide)⟩

/-! ## Claim C7 -/

/-- Claim C7: the legacy bulk-availability endpoint on an existing book
sets, for `available = true`, `available_copies = total_copies` and
`borrowed_copies = 0`, and for `available = false`, `available_copies = 0`
and `borrowed_copies = total_copies`; in both cases it stores the given
flag, leaves `total_copies` unchanged and touches no other record. -/
theorem set_bulk_availability_spec (s : DBState) (bid : Int) (av : Bool)
    (book : Book) (hfind : findBookById s bid = some book) :
    ∃ b', b' ∈ (updateBookStatus s bid av).2.books ∧ b'.id = bid ∧
      b'.total_copies = book.total_copies ∧ b'.available = av ∧
      b'.available_copies = (if av then book.total_copies else 0) ∧
      b'.borrowed_copies = (if av then 0 else book.total_copies) ∧
      (updateBookStatus s bid av).2.books.map Book.id =
        s.books.map Book.id ∧
      (∀ b'', b'' ∈ (updateBookStatus s bid av).2.books → b''.id ≠ bid →
        b'' ∈ s.books) := by
  rw [updateBookStatus_state s bid av hfind]
  obtain ⟨l1, l2, heq, hpre, hx⟩ := find?_decomp hfind
  have hxid : book.id = bid := by simpa using hx
  set f : Book → Book := fun b =>
    { b with available := av,
             available_copies := if av then book.total_copies else 0,
             borrowed_copies := if av then 0 else book.total_copies } with hf
  have hup : updateOne (fun b => b.id == bid) f s.books =
      l1 ++ f book :: l2 := updateOne_of_decomp f heq hpre hx
  refine ⟨f book, ?_, hxid, rfl, rfl, rfl, rfl, ?_, ?_⟩
  · simp only [hup]
    exact List.mem_append.mpr (Or.inr (List.mem_cons_self _ _))
  · simp only [hup]
    simp [heq, hf]
  · intro b'' hb'' hne
    simp only [hup] at hb''
    rcases List.mem_append.mp hb'' with h' | h'
    · exact heq ▸ List.mem_append.mpr (Or.inl h')
    · rcases List.mem_cons.mp h' with rfl | h''
      · exact absurd hxid hne
      · exact heq ▸ List.mem_append.mpr (Or.inr (List.mem_cons_of_mem _ h''))

theorem set_bulk_availability_spec_witness :
    ∃ b', b' ∈ (updateBookStatus c4DemoState 1 true).2.books ∧ b'.id = 1 ∧
      b'.total_copies = 1 ∧ b'.available = true ∧
      b'.available_copies = (if true then (1 : Int) else 0) ∧
      b'.borrowed_copies = (if true then 0 else (1 : Int)) ∧
      (updateBookStatus c4DemoState 1 true).2.books.map Book.id =
        c4DemoState.books.map Book.id ∧
      (∀ b'', b'' ∈ (updateBookStatus c4DemoState 1 true).2.books →
        b''.id ≠ 1 → b'' ∈ c4DemoState.books) :=
  set_bulk_availability_spec c4DemoState 1 true
    { id := 1, title := "A", author := "B", total_copies := 1,
      available_copies := 0, borrowed_copies := 1, available := false,
      discontinued := none } (by decide)

/-! ## Claim C9 -/

/-- Claim C9: `register` stores exactly the role supplied in the request
body — the request model defaults an absent role to "member" and nothing
validates the value, and the endpoint requires no authentication — so an
unauthenticated registration request carrying role "admin" stores an
admin user. -/
theorem register_role_spec (hash : String → String) (s : DBState)
    (inp : UserCreate)
    (h : s.users.find? (fun u => u.email == inp.email) = none) :
    (register hash s inp).2.users = s.users ++ [newUserDoc hash s inp] ∧
    (newUserDoc hash s inp).role = inp.role ∧
    (∀ n e p, ({ name := n, email := e, password := p } : UserCreate).role =
      "member") := by
  refine ⟨?_, rfl, fun n e p => rfl⟩
  rw [register_success hash s inp h]

theorem register_role_spec_witness :
    (register (fun p => String.append "hashed-" p) initState
      { name := "eve", email := "e@x", password := "pw", role := "admin" }).2.users =
      initState.users ++ [newUserDoc (fun p => String.append "hashed-" p)
        initState
        { name := "eve", email := "e@x", password := "pw", role := "admin" }] ∧
    (newUserDoc (fun p => String.append "hashed-" p) initState
      { name := "eve", email := "e@x", password := "pw", role := "admin" }).role =
      "admin" ∧
    (∀ n e p, ({ name := n, email := e, password := p } : UserCreate).role =
      "member") := by
  have h := register_role_spec (fun p => String.append "hashed-" p) initState
    { name := "eve", email := "e@x", password := "pw", role := "admin" }
    (by decide)
  exact ⟨h.1, h.2.1, h.2.2⟩

/-! ## Claim C10 -/

theorem mem_updateOne {α} {p : α → Bool} {f : α → α} {l : List α} {y : α}
    (hy : y ∈ updateOne p f l) : y ∈ l ∨ ∃ x, x ∈ l ∧ y = f x := by
  induction l with
  | nil => simp [updateOne] at hy
  | cons a as ih =>
    by_cases hp : p a
    · rw [updateOne_cons_pos as hp] at hy
      rcases List.mem_cons.mp hy with rfl | hy'
      · exact Or.inr ⟨a, List.mem_cons_self a as, rfl⟩
      · exact Or.inl (List.mem_cons_of_mem _ hy')
    · have hstep : updateOne p f (a :: as) = a :: updateOne p f as := by
        simp [updateOne, hp]
      rw [hstep] at hy
      rcases List.mem_cons.mp hy with rfl | hy'
      · exact Or.inl (List.mem_cons_self _ _)
      · rcases ih hy' with h' | ⟨x, hx, hyx⟩
        · exact Or.inl (List.mem_cons_of_mem _ h')
        · exact Or.inr ⟨x, List.mem_cons_of_mem _ hx, hyx⟩

theorem mem_deleteOne {α} {p : α → Bool} {l : List α} {y : α}
    (hy : y ∈ (deleteOne p l).1) : y ∈ l := by
  induction l with
  | nil => simp [deleteOne] at hy
  | cons a as ih =>
    by_cases hp : p a
    · simp only [deleteOne, if_pos hp] at hy
      exact List.mem_cons_of_mem _ hy
    · simp only [deleteOne, if_neg hp] at hy
      rcases List.mem_cons.mp hy with rfl | hy'
      · exact List.mem_cons_self _ _
      · exact List.mem_cons_of_mem _ (ih hy')

/-- An id-preserving per-book update that never clears the `discontinued`
flag keeps it set on the record that carried it. -/
theorem discontinued_after_updateOne {books : List Book} {b : Book}
    (hnodup : (books.map Book.id).Nodup) (hb : b ∈ books)
    (hd : b.discontinued = some true) {p : Book → Bool} {f : Book → Book}
    (hid : ∀ x, (f x).id = x.id)
    (hdis : ∀ x, (f x).discontinued = x.discontinued ∨
      (f x).discontinued = some true) :
    ∀ b', b' ∈ updateOne p f books → b'.id = b.id →
      b'.discontinued = some true := by
  intro b' hb' hbid
  rcases mem_updateOne hb' with h' | ⟨x, hx, rfl⟩
  · rw [eq_of_nodup_map hnodup h' hb hbid]
    exact hd
  · have hxb : x = b := by
      apply eq_of_nodup_map hnodup hx hb
      rw [← hid x]
      exact hbid
    subst hxb
    rcases hdis x with h' | h'
    · rw [h']
      exact hd
    · exact h'

/-- Claim C10: once `discontinued = true` on a record, no public catalog
or ledger operation resets it to false; in particular `add_or_merge` on
the discontinued book's (title, author) restores positive
`total_copies` and `available_copies` and sets `available = true` while
leaving `discontinued = true`. -/
theorem discontinued_permanent (s : DBState) (b : Book)
    (hnodup : (s.books.map Book.id).Nodup)
    (hle : ∀ x ∈ s.books, x.id ≤ s.bookSeq)
    (hb : b ∈ s.books) (hd : b.discontinued = some true) :
    (∀ op : Op, ∀ b', b' ∈ (applyOp s op).books → b'.id = b.id →
      b'.discontinued = some true) ∧
    (∀ t a c, findBookByTitleAuthor s t a = some b → 0 < c →
      b.total_copies = 0 → b.available_copies = 0 →
      ∃ b', b' ∈ (addBook s { title := t, author := a, total_copies := c }).2.books ∧
        b'.id = b.id ∧ 0 < b'.total_copies ∧ 0 < b'.available_copies ∧
        b'.available = true ∧ b'.discontinued = some true) := by
  have hbase : ∀ b', b' ∈ s.books → b'.id = b.id →
      b'.discontinued = some true := by
    intro b' hb' hbid
    rw [eq_of_nodup_map hnodup hb' hb hbid]
    exact hd
  constructor
  · intro op b' hb' hbid
    cases op with
    | addOrMerge t a c =>
      cases hfind : findBookByTitleAuthor s t a with
      | some ex =>
        simp only [applyOp] at hb'
        rw [addBook_merge_state s _ hfind] at hb'
        refine discontinued_after_updateOne hnodup hb hd ?_ ?_ b' hb' hbid
        · intro x; rfl
        · intro x; exact Or.inl rfl
      | none =>
        have hchar := addBook_fresh s
          { title := t, author := a, total_copies := c } hfind
        simp only [applyOp, hchar] at hb'
        rcases List.mem_append.mp hb' with h' | h'
        · exact hbase b' h' hbid
        · exfalso
          have hfid : b'.id = s.bookSeq + 1 := by
            rw [List.mem_singleton.mp h']
            rfl
          have := hle b hb
          omega
    | addCopies bid c =>
      by_cases hc : c ≤ 0
      · simp only [applyOp, addBookCopies_nonpos s bid c hc] at hb'
        exact hbase b' hb' hbid
      · cases hfind : findBookById s bid with
        | none =>
          simp only [applyOp, addBookCopies_notfound s bid c hc hfind] at hb'
          exact hbase b' hb' hbid
        | some book =>
          rw [applyOp, addBookCopies_state s bid c hc hfind] at hb'
          refine discontinued_after_updateOne hnodup hb hd ?_ ?_ b' hb' hbid
          · intro x; rfl
          · intro x; exact Or.inl rfl
    | removeCopies bid c =>
      by_cases hc : c ≤ 0
      · simp only [applyOp, removeBookCopies_nonpos s bid c hc] at hb'
        exact hbase b' hb' hbid
      · cases hfind : findBookById s bid with
        | none =>
          simp only [applyOp, removeBookCopies_notfound s bid c hc hfind] at hb'
          exact hbase b' hb' hbid
        | some book =>
          by_cases hgt : c > book.available_copies
          · rw [applyOp, removeBookCopies_excess s bid c hc hfind hgt] at hb'
            exact hbase b' hb' hbid
          · rw [applyOp, removeBookCopies_state s bid c hc hfind hgt] at hb'
            refine discontinued_after_updateOne hnodup hb hd ?_ ?_ b' hb' hbid
            · intro x; rfl
            · intro x; exact Or.inl rfl
    | borrow u bid =>
      cases hfind : findBookById s bid with
      | none =>
        simp only [applyOp, borrowBook_notfound s bid u hfind] at hb'
        exact hbase b' hb' hbid
      | some book =>
        by_cases h1 : book.available_copies ≤ 0
        · simp only [applyOp, borrowBook_nocopies s bid u hfind h1] at hb'
          exact hbase b' hb' hbid
        · cases h2 : findActiveBorrow s u.id bid with
          | some r =>
            simp only [applyOp, borrowBook_already hfind h1 h2] at hb'
            exact hbase b' hb' hbid
          | none =>
            rw [applyOp, borrowBook_success s bid u hfind h1 h2] at hb'
            refine discontinued_after_updateOne hnodup hb hd ?_ ?_ b' hb' hbid
            · intro x; rfl
            · intro x; exact Or.inl rfl
    | ret u rid =>
      cases hfound : s.borrow_records.find? (fun r => r.oid == rid) with
      | none =>
        simp only [applyOp, returnBook_notfound s rid u hfound] at hb'
        exact hbase b' hb' hbid
      | some record =>
        cases hret : record.returned_at with
        | some t0 =>
          have hret' : record.returned_at.isSome := by rw [hret]; rfl
          simp only [applyOp, returnBook_already hfound hret'] at hb'
          exact hbase b' hb' hbid
        | none =>
          by_cases hperm : record.user_id ≠ u.id ∧ u.role ≠ "admin"
          · simp only [applyOp, returnBook_forbidden hfound hret hperm] at hb'
            exact hbase b' hb' hbid
          · have hperm' : record.user_id = u.id ∨ u.role = "admin" := by
              rcases Decidable.not_and_iff_or_not.mp hperm with h' | h'
              · exact Or.inl (not_not.mp h')
              · exact Or.inr (not_not.mp h')
            cases hbook : findBookById s record.book_id with
            | none =>
              simp only [applyOp,
                returnBook_bookgone hfound hret hperm' hbook] at hb'
              exact hbase b' hb' hbid
            | some book =>
              have hoid : record.oid = rid := by
                simpa using List.find?_some hfound
              subst hoid
              rw [applyOp,
                returnBook_success record.oid u hfound hret hperm' hbook] at hb'
              refine discontinued_after_updateOne hnodup hb hd ?_ ?_ b' hb' hbid
              · intro x; rfl
              · intro x; exact Or.inl rfl
    | setBulk bid av =>
      cases hfind : findBookById s bid with
      | none =>
        simp only [applyOp, updateBookStatus_notfound s bid av hfind] at hb'
        exact hbase b' hb' hbid
      | some book =>
        rw [applyOp, updateBookStatus_state s bid av hfind] at hb'
        refine discontinued_after_updateOne hnodup hb hd ?_ ?_ b' hb' hbid
        · intro x; rfl
        · intro x; exact Or.inl rfl
    | discontinue bid =>
      cases hfind : findBookById s bid with
      | none =>
        simp only [applyOp, discontinueBook_notfound s bid hfind] at hb'
        exact hbase b' hb' hbid
      | some book =>
        by_cases hbz : book.borrowed_copies > 0
        · rw [applyOp, discontinueBook_borrowed s bid hfind hbz] at hb'
          exact hbase b' hb' hbid
        · rw [applyOp, discontinueBook_state s bid hfind hbz] at hb'
          refine discontinued_after_updateOne hnodup hb hd ?_ ?_ b' hb' hbid
          · intro x; rfl
          · intro x; exact Or.inr rfl
    | deleteCopies bid =>
      cases hfind : findBookById s bid with
      | none =>
        simp only [applyOp, deleteBookCopies_notfound s bid hfind] at hb'
        exact hbase b' hb' hbid
      | some book =>
        by_cases hbz : book.borrowed_copies > 0
        · rw [applyOp, deleteBookCopies_borrowed s bid hfind hbz] at hb'
          exact hbase b' hb' hbid
        · rw [applyOp, deleteBookCopies_state s bid hfind hbz] at hb'
          exact hbase b' (mem_deleteOne hb') hbid
  · intro t a c hfind hc htz haz
    rw [addBook_merge_state s _ hfind]
    cases hfid : findBookById s b.id with
    | none =>
      exfalso
      rw [findBookById, List.find?_eq_none] at hfid
      exact absurd (by simp) (hfid b hb)
    | some book' =>
      have hb'id : book'.id = b.id := by simpa using List.find?_some hfid
      have hb'mem : book' ∈ s.books := List.mem_of_find?_eq_some hfid
      have hb'eq : book' = b := eq_of_nodup_map hnodup hb'mem hb hb'id
      subst hb'eq
      obtain ⟨l1, l2, heq, hpre, hx⟩ := find?_decomp hfid
      set f : Book → Book := fun x =>
        { x with total_copies := book'.total_copies + c,
                 available_copies := book'.available_copies + c,
                 available := true } with hf
      have hup : updateOne (fun x => x.id == book'.id) f s.books =
          l1 ++ f book' :: l2 := updateOne_of_decomp f heq hpre hx
      refine ⟨f book', ?_, rfl, ?_, ?_, rfl, hd⟩
      · simp only [hup]
        exact List.mem_append.mpr (Or.inr (List.mem_cons_self _ _))
      · simp only [hf]
        omega
      · simp only [hf]
        omega

theorem discontinued_permanent_witness :
    (∀ b', b' ∈ (applyOp c10DemoState (Op.addCopies 1 5)).books →
      b'.id = 1 → b'.discontinued = some true) ∧
    (∃ b', b' ∈ (addBook c10DemoState
        { title := "A", author := "B", total_copies := 2 }).2.books ∧
      b'.id = 1 ∧ 0 < b'.total_copies ∧ 0 < b'.available_copies ∧
      b'.available = true ∧ b'.discontinued = some true) := by
  have h := discontinued_permanent c10DemoState
    { id := 1, title := "A", author := "B", total_copies := 0,
      available_copies := 0, borrowed_copies := 0, available := false,
      discontinued := some true } (by decide) (by decide) (by decide) rfl
  exact ⟨fun b' hb' hbid => h.1 (Op.addCopies 1 5) b' hb' hbid,
    h.2 "A" "B" 2 (by decide) (by decide) rfl rfl⟩

/-! ## Claim C8: storage-level traces of the counter mutations -/

/-- Claim C8 fails: a successful borrow issues a `find_one` on the book
followed by a separate `update_one` writing absolute counter values
computed from the read — a read-then-write pair, not a single atomic
conditional update; `add_book_copies` issues the same shape. -/
theorem atomic_update_claim_violation :
    singleAtomicCounterMutation
      (borrowBookTrace c3DemoState 1 ⟨"u", "member"⟩) = false ∧
    readThenWriteCounters
      (borrowBookTrace c3DemoState 1 ⟨"u", "member"⟩) = true ∧
    singleAtomicCounterMutation (addBookCopiesTrace c3DemoState 1 2) = false := by
  decide

/-- Claim C8 (amended): every counter mutation on a book — borrow,
return, add_copies, remove_copies, and the merge branch of add_or_merge
— issues exactly one counter-writing `update_one` keyed by the book id,
whose `$set` payload carries absolute values computed from a preceding
separate `find_one` of the book document: a read-then-write pair, never
a single atomic conditional update, and never an atomic increment; the
only atomic find-one-and-update (`$inc`) in any handler trace is the
Sequence Generator's "bookid" counter in the creation branch of
add_or_merge, which mutates no existing book's counters. -/
theorem counter_mutation_read_then_write (s : DBState) :
    (∀ bid u book, findBookById s bid = some book →
      ¬ book.available_copies ≤ 0 → findActiveBorrow s u.id bid = none →
      borrowBookTrace s bid u =
        [.findOneBooks bid,
         .findOneActiveBorrow u.id bid,
         .updateOneBooksSet bid none
           (some (book.available_copies - 1))
           (some (book.borrowed_copies + 1))
           (some (decide (book.available_copies - 1 > 0))),
         .insertOneBorrowRecord u.id bid] ∧
      (borrowBookTrace s bid u).countP (writesCounters bid) = 1 ∧
      readThenWriteCounters (borrowBookTrace s bid u) = true ∧
      singleAtomicCounterMutation (borrowBookTrace s bid u) = false ∧
      (borrowBookTrace s bid u).filter isAtomicIncrement = []) ∧
    (∀ bid c book, findBookById s bid = some book → ¬ c ≤ 0 →
      addBookCopiesTrace s bid c =
        [.findOneBooks bid,
         .updateOneBooksSet bid
           (some (book.total_copies + c))
           (some (book.available_copies + c)) none (some true)] ∧
      (addBookCopiesTrace s bid c).countP (writesCounters bid) = 1 ∧
      readThenWriteCounters (addBookCopiesTrace s bid c) = true ∧
      singleAtomicCounterMutation (addBookCopiesTrace s bid c) = false ∧
      (addBookCopiesTrace s bid c).filter isAtomicIncrement = []) ∧
    (∀ bid c book, findBookById s bid = some book → ¬ c ≤ 0 →
      ¬ c > book.available_copies →
      removeBookCopiesTrace s bid c =
        [.findOneBooks bid,
         .updateOneBooksSet bid
           (some (book.total_copies - c))
           (some (book.available_copies - c)) none
           (some (decide (book.available_copies - c > 0)))] ∧
      (removeBookCopiesTrace s bid c).countP (writesCounters bid) = 1 ∧
      readThenWriteCounters (removeBookCopiesTrace s bid c) = true ∧
      singleAtomicCounterMutation (removeBookCopiesTrace s bid c) = false ∧
      (removeBookCopiesTrace s bid c).filter isAtomicIncrement = []) ∧
    (∀ rid u record book,
      s.borrow_records.find? (fun r => r.oid == rid) = some record →
      record.returned_at = none →
      (record.user_id = u.id ∨ u.role = "admin") →
      findBookById s record.book_id = some book →
      returnBookTrace s rid u =
        [.findOneBorrowRecord rid,
         .findOneBooks record.book_id,
         .updateOneBorrowRecordSet record.oid s.clock,
         .updateOneBooksSet record.book_id none
           (some (book.available_copies + 1))
           (some (max 0 (book.borrowed_copies - 1)))
           (some true)] ∧
      (returnBookTrace s rid u).countP (writesCounters record.book_id) = 1 ∧
      readThenWriteCounters (returnBookTrace s rid u) = true ∧
      singleAtomicCounterMutation (returnBookTrace s rid u) = false ∧
      (returnBookTrace s rid u).filter isAtomicIncrement = []) ∧
    (∀ bk ex, findBookByTitleAuthor s bk.title bk.author = some ex →
      addBookTrace s bk =
        [.findOneBooksByTitleAuthor bk.title bk.author,
         .updateOneBooksSet ex.id
           (some (ex.total_copies + bk.total_copies))
           (some (ex.available_copies + bk.total_copies)) none (some true),
         .findOneBooks ex.id] ∧
      (addBookTrace s bk).countP (writesCounters ex.id) = 1 ∧
      readThenWriteCounters (addBookTrace s bk) = true ∧
      singleAtomicCounterMutation (addBookTrace s bk) = false ∧
      (addBookTrace s bk).filter isAtomicIncrement = []) ∧
    (∀ bk, findBookByTitleAuthor s bk.title bk.author = none →
      addBookTrace s bk =
        [.findOneBooksByTitleAuthor bk.title bk.author,
         .findOneAndUpdateCounterInc "bookid" 1,
         .insertOneBook (freshBook s bk)] ∧
      (addBookTrace s bk).countP writesCountersSome = 0 ∧
      (addBookTrace s bk).filter isAtomicIncrement =
        [.findOneAndUpdateCounterInc "bookid" 1]) := by
  refine ⟨?_, ?_, ?_, ?_, ?_, ?_⟩
  · intro bid u book hfind h1 h2
    have htr : borrowBookTrace s bid u =
        [.findOneBooks bid,
         .findOneActiveBorrow u.id bid,
         .updateOneBooksSet bid none
           (some (book.available_copies - 1))
           (some (book.borrowed_copies + 1))
           (some (decide (book.available_copies - 1 > 0))),
         .insertOneBorrowRecord u.id bid] := by
      simp [borrowBookTrace, hfind, h1, h2]
    rw [singleAtomicCounterMutation, htr]
    refine ⟨rfl, ?_, ?_, ?_, ?_⟩
    · simp [List.countP_cons, writesCounters]
    · simp [readThenWriteCounters, writesCounters]
    · simp [readThenWriteCounters, writesCounters]
    · simp [isAtomicIncrement]
  · intro bid c book hfind hc
    have htr : addBookCopiesTrace s bid c =
        [.findOneBooks bid,
         .updateOneBooksSet bid
           (some (book.total_copies + c))
           (some (book.available_copies + c)) none (some true)] := by
      simp [addBookCopiesTrace, hc, hfind]
    rw [singleAtomicCounterMutation, htr]
    refine ⟨rfl, ?_, ?_, ?_, ?_⟩
    · simp [List.countP_cons, writesCounters]
    · simp [readThenWriteCounters, writesCounters]
    · simp [readThenWriteCounters, writesCounters]
    · simp [isAtomicIncrement]
  · intro bid c book hfind hc hgt
    have htr : removeBookCopiesTrace s bid c =
        [.findOneBooks bid,
         .updateOneBooksSet bid
           (some (book.total_copies - c))
           (some (book.available_copies - c)) none
           (some (decide (book.available_copies - c > 0)))] := by
      simp [removeBookCopiesTrace, hc, hfind, hgt]
    rw [singleAtomicCounterMutation, htr]
    refine ⟨rfl, ?_, ?_, ?_, ?_⟩
    · simp [List.countP_cons, writesCounters]
    · simp [readThenWriteCounters, writesCounters]
    · simp [readThenWriteCounters, writesCounters]
    · simp [isAtomicIncrement]
  · intro rid u record book hfound hact hperm hb
    have hcond : (record.user_id != u.id && u.role != "admin") = false := by
      rcases hperm with h' | h' <;> simp [h']
    have htr : returnBookTrace s rid u =
        [.findOneBorrowRecord rid,
         .findOneBooks record.book_id,
         .updateOneBorrowRecordSet record.oid s.clock,
         .updateOneBooksSet record.book_id none
           (some (book.available_copies + 1))
           (some (max 0 (book.borrowed_copies - 1)))
           (some true)] := by
      simp [returnBookTrace, hfound, hact, hcond, hb]
    rw [singleAtomicCounterMutation, htr]
    refine ⟨rfl, ?_, ?_, ?_, ?_⟩
    · simp [List.countP_cons, writesCounters]
    · simp [readThenWriteCounters, writesCounters]
    · simp [readThenWriteCounters, writesCounters]
    · simp [isAtomicIncrement]
  · intro bk ex hfind
    have htr : addBookTrace s bk =
        [.findOneBooksByTitleAuthor bk.title bk.author,
         .updateOneBooksSet ex.id
           (some (ex.total_copies + bk.total_copies))
           (some (ex.available_copies + bk.total_copies)) none (some true),
         .findOneBooks ex.id] := by
      simp [addBookTrace, hfind]
    rw [singleAtomicCounterMutation, htr]
    refine ⟨rfl, ?_, ?_, ?_, ?_⟩
    · simp [List.countP_cons, writesCounters]
    · simp [readThenWriteCounters, writesCounters, writesCountersSome]
    · simp [readThenWriteCounters, writesCounters, writesCountersSome]
    · simp [isAtomicIncrement]
  · intro bk hfind
    have htr : addBookTrace s bk =
        [.findOneBooksByTitleAuthor bk.title bk.author,
         .findOneAndUpdateCounterInc "bookid" 1,
         .insertOneBook (freshBook s bk)] := by
      simp [addBookTrace, hfind]
    rw [htr]
    refine ⟨rfl, ?_, ?_⟩
    · simp [List.countP_cons, writesCountersSome]
    · simp [isAtomicIncrement]

theorem counter_mutation_read_then_write_witness :
    ((borrowBookTrace c8DemoState 1 ⟨"u", "member"⟩).countP
        (writesCounters 1) = 1 ∧
     readThenWriteCounters (borrowBookTrace c8DemoState 1 ⟨"u", "member"⟩) =
       true ∧
     singleAtomicCounterMutation
       (borrowBookTrace c8DemoState 1 ⟨"u", "member"⟩) = false ∧
     (borrowBookTrace c8DemoState 1 ⟨"u", "member"⟩).filter
       isAtomicIncrement = []) ∧
    ((addBookCopiesTrace c8DemoState 1 2).countP (writesCounters 1) = 1 ∧
     readThenWriteCounters (addBookCopiesTrace c8DemoState 1 2) = true ∧
     singleAtomicCounterMutation (addBookCopiesTrace c8DemoState 1 2) =
       false ∧
     (addBookCopiesTrace c8DemoState 1 2).filter isAtomicIncrement = []) ∧
    ((removeBookCopiesTrace c8DemoState 1 2).countP (writesCounters 1) = 1 ∧
     readThenWriteCounters (removeBookCopiesTrace c8DemoState 1 2) = true ∧
     singleAtomicCounterMutation (removeBookCopiesTrace c8DemoState 1 2) =
       false ∧
     (removeBookCopiesTrace c8DemoState 1 2).filter isAtomicIncrement = []) ∧
    ((returnBookTrace c8DemoState 0 ⟨"w", "member"⟩).countP
        (writesCounters 1) = 1 ∧
     readThenWriteCounters (returnBookTrace c8DemoState 0 ⟨"w", "member"⟩) =
       true ∧
     singleAtomicCounterMutation
       (returnBookTrace c8DemoState 0 ⟨"w", "member"⟩) = false ∧
     (returnBookTrace c8DemoState 0 ⟨"w", "member"⟩).filter
       isAtomicIncrement = []) ∧
    ((addBookTrace c8DemoState { title := "A", author := "B", total_copies := 2 }).countP
        (writesCounters 1) = 1 ∧
     readThenWriteCounters
       (addBookTrace c8DemoState { title := "A", author := "B", total_copies := 2 }) = true ∧
     singleAtomicCounterMutation
       (addBookTrace c8DemoState { title := "A", author := "B", total_copies := 2 }) = false ∧
     (addBookTrace c8DemoState { title := "A", author := "B", total_copies := 2 }).filter
       isAtomicIncrement = []) ∧
    ((addBookTrace c8DemoState { title := "C", author := "D", total_copies := 1 }).countP
        writesCountersSome = 0 ∧
     (addBookTrace c8DemoState { title := "C", author := "D", total_copies := 1 }).filter
       isAtomicIncrement = [.findOneAndUpdateCounterInc "bookid" 1]) := by
  have h := counter_mutation_read_then_write c8DemoState
  have hbook : findBookById c8DemoState 1 = some
      { id := 1, title := "A", author := "B", total_copies := 3,
        available_copies := 2, borrowed_copies := 1, available := true,
        discontinued := none } := by decide
  have h1 := h.1 1 ⟨"u", "member"⟩ _ hbook (by decide) (by decide)
  have h2 := h.2.1 1 2 _ hbook (by decide)
  have h3 := h.2.2.1 1 2 _ hbook (by decide) (by decide)
  have h4 := h.2.2.2.1 0 ⟨"w", "member"⟩
    { oid := 0, user_id := "w", book_id := 1, borrowed_at := 0,
      returned_at := none } _ (by decide) rfl (Or.inl rfl) hbook
  have h5 := h.2.2.2.2.1 { title := "A", author := "B", total_copies := 2 }
    { id := 1, title := "A", author := "B", total_copies := 3,
      available_copies := 2, borrowed_copies := 1, available := true,
      discontinued := none } (by decide)
  have h6 := h.2.2.2.2.2 { title := "C", author := "D", total_copies := 1 }
    (by decide)
  exact ⟨⟨h1.2.1, h1.2.2.1, h1.2.2.2.1, h1.2.2.2.2⟩,
    ⟨h2.2.1, h2.2.2.1, h2.2.2.2.1, h2.2.2.2.2⟩,
    ⟨h3.2.1, h3.2.2.1, h3.2.2.2.1, h3.2.2.2.2⟩,
    ⟨h4.2.1, h4.2.2.1, h4.2.2.2.1, h4.2.2.2.2⟩,
    ⟨h5.2.1, h5.2.2.1, h5.2.2.2.1, h5.2.2.2.2⟩,
    ⟨h6.2.1, h6.2.2⟩⟩

end BMS
